import Mathlib

/-!
Verification of the retrospective real-time collaboration engine.

This file is a shallow embedding of the Go backend found under
`internal/api` (voting_service.go, item_service.go, realtime_service.go,
retrospective_service, errors) and `internal/vstore/models.go`.

Modelling conventions:
* Go maps keyed by an id are modelled as lists of records; lookup is
  `List.find?` on the key, update is replace-or-append.  For states whose
  key sets are duplicate-free this coincides with map semantics; theorems
  that need uniqueness take it as an explicit hypothesis.
* `int32` fields (vote counts, limits, participant counts) are modelled as
  `Int`.  No claim in scope depends on 32-bit wraparound: every count is
  bounded by the length of a store list.
* `time.Now()` is modelled by an explicit `now : Int` parameter on the
  operations that record a timestamp; the time-derived `VOTE-%d` ids are
  modelled by a fresh-id counter `nextVoteID`.
* Each service handler returns a triple: the gRPC result (`Except Err _`),
  the post-state of the in-memory stores, and the list of events the
  handler hands to `EventBroadcaster.Broadcast` during the call.  Error
  paths return the state the Go stores hold after the failed call.
* The event broadcaster (`EventBroadcaster` in realtime_service.go) is
  modelled by `Hub`: the subscriber registry (retro id to channel ids),
  each channel's buffered queue (capacity 100) and the list of channels
  that have been closed.  Channel sends use the Go `select`/`default`
  semantics: append when the buffer has room, silently drop otherwise.
-/

deriving instance DecidableEq for Except

namespace VRetro

/-- Go map assignment `m[key] = x` on a map modelled as a list of
records: overwrite every record matching the key predicate, appending
the record when the key is absent. -/
def replaceOrAppend {α : Type} (p : α → Bool) (x : α) (l : List α) : List α :=
  if l.any p then l.map (fun y => if p y then x else y) else l ++ [x]

/-- `vstore.RetrospectiveStatus`. -/
inductive RStatus where
  | unspecified
  | draft
  | active
  | voting
  | discussing
  | completed
deriving DecidableEq, Repr

/-- Position of a status in the forward transition chain
DRAFT → ACTIVE → VOTING → DISCUSSING → COMPLETED. -/
def statusRank : RStatus → Nat
  | .unspecified => 0
  | .draft => 1
  | .active => 2
  | .voting => 3
  | .discussing => 4
  | .completed => 5

/-- `vstore.VotingConfig`. -/
structure VotingConfig where
  maxVotesPerUser : Int
  allowMultipleVotesPerItem : Bool
  anonymousVoting : Bool
deriving DecidableEq, Repr

/-- `vstore.Retrospective`, restricted to the fields the modelled
operations read or write. -/
structure Retrospective where
  retrospectiveID : String
  status : RStatus
  votingConfig : VotingConfig
  facilitatorID : String
  participantCount : Int
  completedAt : Int
deriving DecidableEq, Repr

/-- `vstore.RetrospectiveItem`, restricted to the fields the voting engine
reads or writes. -/
structure Item where
  itemID : String
  retrospectiveID : String
  voteCount : Int
deriving DecidableEq, Repr

/-- `vstore.Vote`.  `voteID` is a counter-generated fresh id standing for
the Go `VOTE-<unix nanos>` string. -/
structure Vote where
  voteID : Nat
  retrospectiveID : String
  itemID : String
  userID : String
deriving DecidableEq, Repr

/-- `vstore.ParticipantRole`. -/
inductive Role where
  | member
  | facilitator
  | observer
deriving DecidableEq, Repr

/-- `vstore.Participant`; the store key is the pair
(retrospectiveID, userID), written `retroID + ":" + userID` in Go. -/
structure Participant where
  retrospectiveID : String
  userID : String
  displayName : String
  avatarURL : String
  role : Role
  joinedAt : Int
  lastActive : Int
  isOnline : Bool
deriving DecidableEq, Repr

/-- The sentinel errors of errors.go (`ErrNotFound`, `ErrAlreadyExists`,
`ErrInvalidArgument`, `ErrPermissionDenied`, `ErrVoteLimitExceeded`,
`ErrInvalidStatus`). -/
inductive Err where
  | notFound
  | alreadyExists
  | invalidArgument
  | permissionDenied
  | voteLimitExceeded
  | invalidStatus
deriving DecidableEq, Repr

/-- The `pb.RetrospectiveEvent` payload variants built by the
`Broadcast*` helpers of realtime_service.go, with the fields subscribers
read. -/
inductive Event where
  | statusChanged (previous next : RStatus) (changedBy : String)
  | voteCast (itemId : String) (newVoteCount : Int) (userId : String)
  | voteRemoved (itemId : String) (newVoteCount : Int) (userId : String)
  | participantJoined (userId : String) (participantCount : Int)
  | participantLeft (userId : String) (participantCount : Int)
  | itemCreated (itemId : String)
  | itemUpdated (itemId : String)
  | itemDeleted (itemId : String) (columnId : String)
deriving DecidableEq, Repr

/-- The combined contents of the in-memory stores
(`InMemoryRetrospectiveStore`, `InMemoryItemStore`, `InMemoryVoteStore`,
`InMemoryParticipantStore`), plus the fresh vote-id counter. -/
structure St where
  retros : List Retrospective
  items : List Item
  votes : List Vote
  participants : List Participant
  nextVoteID : Nat
deriving DecidableEq, Repr

/-! ## Store primitives -/

/-- `InMemoryRetrospectiveStore.Get`. -/
def retroGet (s : St) (id : String) : Option Retrospective :=
  s.retros.find? (fun r => r.retrospectiveID == id)

/-- `InMemoryRetrospectiveStore.Update` / `Create`: overwrite the record
with this id (Go map assignment), inserting it when absent. -/
def retrosUpdate (rs : List Retrospective) (r : Retrospective) : List Retrospective :=
  replaceOrAppend (fun q => q.retrospectiveID == r.retrospectiveID) r rs

/-- `InMemoryItemStore.Get` on a raw item list. -/
def itemGetL (items : List Item) (id : String) : Option Item :=
  items.find? (fun it => it.itemID == id)

/-- `InMemoryItemStore.Get`. -/
def itemGet (s : St) (id : String) : Option Item :=
  itemGetL s.items id

/-- `InMemoryItemStore.IncrementVoteCount`: bump the record with this id,
`ErrNotFound` (here `none`) when it is absent. -/
def itemsIncrement (items : List Item) (id : String) : Option (List Item) :=
  if items.any (fun it => it.itemID == id) then
    some (items.map (fun it =>
      if it.itemID == id then { it with voteCount := it.voteCount + 1 } else it))
  else none

/-- `InMemoryItemStore.DecrementVoteCount`: decrement floored at 0; a
missing item is reported as `ErrNotFound` but every caller ignores the
error, so the list shape is all that matters. -/
def itemsDecrement (items : List Item) (id : String) : List Item :=
  items.map (fun it =>
    if it.itemID == id then
      (if 0 < it.voteCount then { it with voteCount := it.voteCount - 1 } else it)
    else it)

/-- The match predicate of `InMemoryVoteStore.GetByUserAndItem`. -/
def voteMatches (retroId itemId userId : String) (v : Vote) : Bool :=
  v.retrospectiveID == retroId && v.itemID == itemId && v.userID == userId

/-- The match predicate of `InMemoryVoteStore.CountByUser` /
`ListByUser`. -/
def userVoteMatches (retroId userId : String) (v : Vote) : Bool :=
  v.retrospectiveID == retroId && v.userID == userId

/-- `InMemoryVoteStore.CountByUser`. -/
def votesCountByUser (s : St) (retroId userId : String) : Nat :=
  (s.votes.filter (userVoteMatches retroId userId)).length

/-- Number of stored votes for one (retrospective, item, user) triple. -/
def votesForTriple (s : St) (retroId itemId userId : String) : Nat :=
  (s.votes.filter (voteMatches retroId itemId userId)).length

/-- `InMemoryParticipantStore.Join`: overwrite the record keyed by
(retrospectiveID, userID), inserting it when absent.  The store
unconditionally stamps `joinedAt`, `lastActive` and `isOnline` on the
record it is handed; the caller has already set them on `p`. -/
def participantsJoin (ps : List Participant) (p : Participant) : List Participant :=
  replaceOrAppend
    (fun q => q.retrospectiveID == p.retrospectiveID && q.userID == p.userID) p ps

/-- `InMemoryParticipantStore.ListByRetrospective`: only rows currently
flagged online. -/
def onlineParticipants (s : St) (retroId : String) : List Participant :=
  s.participants.filter (fun p => p.retrospectiveID == retroId && p.isOnline)

/-! ## VotingService -/

/-- `VotingService.CastVote` (voting_service.go).  Returns the gRPC
result, the post-state and the events handed to the broadcaster (none:
the handler never calls `Broadcast`). -/
def castVote (s : St) (retroId itemId userId : String) :
    Except Err Unit × St × List Event :=
  if retroId = "" then (.error .invalidArgument, s, [])
  else if itemId = "" then (.error .invalidArgument, s, [])
  else
    match retroGet s retroId with
    | none => (.error .notFound, s, [])
    | some retro =>
      if ¬ (retro.status = .voting ∨ retro.status = .active) then
        (.error .invalidStatus, s, [])
      else
        match itemGet s itemId with
        | none => (.error .notFound, s, [])
        | some item =>
          if item.retrospectiveID ≠ retroId then (.error .invalidArgument, s, [])
          else
            if (s.votes.find? (voteMatches retroId itemId userId)).isSome ∧
                retro.votingConfig.allowMultipleVotesPerItem = false then
              (.error .alreadyExists, s, [])
            else
              if (votesCountByUser s retroId userId : Int) ≥
                  retro.votingConfig.maxVotesPerUser then
                (.error .voteLimitExceeded, s, [])
              else
                -- the created vote is ⟨s.nextVoteID, retroId, itemId, userId⟩
                match itemsIncrement s.items itemId with
                | none =>
                  -- increment failed: the just-created vote is rolled back
                  (.error .notFound,
                    { s with
                        votes := (s.votes ++ [Vote.mk s.nextVoteID retroId itemId userId]).filter
                          (fun v => v.voteID != s.nextVoteID)
                        nextVoteID := s.nextVoteID + 1 }, [])
                | some items2 =>
                  (.ok (),
                    { s with
                        votes := s.votes ++ [Vote.mk s.nextVoteID retroId itemId userId]
                        nextVoteID := s.nextVoteID + 1
                        items := items2 }, [])

/-- `VotingService.RemoveVote` (voting_service.go). -/
def removeVote (s : St) (retroId itemId userId : String) :
    Except Err Unit × St × List Event :=
  if retroId = "" then (.error .invalidArgument, s, [])
  else if itemId = "" then (.error .invalidArgument, s, [])
  else
    match s.votes.find? (voteMatches retroId itemId userId) with
    | none => (.error .notFound, s, [])
    | some vote =>
      (.ok (),
        { s with
            votes := s.votes.filter (fun v => v.voteID != vote.voteID)
            items := itemsDecrement s.items itemId }, [])

/-- The `pb.UserVoteSummary` payload of `GetUserVotes`. -/
structure UserVoteSummary where
  userId : String
  votesCast : Int
  votesRemaining : Int
  votedItemIds : List String
deriving DecidableEq, Repr

/-- `VotingService.GetUserVotes` (voting_service.go).  `reqUserId` is the
request field, `ctxUserId` the id the auth context resolves to. -/
def getUserVotes (s : St) (retroId reqUserId ctxUserId : String) :
    Except Err UserVoteSummary :=
  if retroId = "" then .error .invalidArgument
  else
    let userId := if reqUserId = "" then ctxUserId else reqUserId
    match retroGet s retroId with
    | none => .error .notFound
    | some retro =>
      let votes := s.votes.filter (userVoteMatches retroId userId)
      let votesCast : Int := votes.length
      let remaining := retro.votingConfig.maxVotesPerUser - votesCast
      .ok { userId := userId
            votesCast := votesCast
            votesRemaining := if remaining < 0 then 0 else remaining
            votedItemIds := votes.map (fun v => v.itemID) }

/-! ### GetVoteSummary ranking -/

/-- Descending insertion, the model of `sort.Slice(itemVotes, voteCount >)`:
any sort consistent with that comparator yields the same rank map, since
ranks depend only on the vote counts. -/
def insertDesc (x : String × Int) : List (String × Int) → List (String × Int)
  | [] => [x]
  | y :: ys => if y.2 ≤ x.2 then x :: y :: ys else y :: insertDesc x ys

/-- Sort (itemID, voteCount) pairs by vote count descending. -/
def sortDesc (l : List (String × Int)) : List (String × Int) :=
  l.foldr insertDesc []

/-- The rank-map loop of `GetVoteSummary`: walk the sorted list keeping
the 1-based position at which the current vote count first appeared. -/
def rankLoop : List (String × Int) → Nat → Int → Int → List (String × Int)
  | [], _, _, _ => []
  | x :: rest, i, cur, last =>
    let cur' := if x.2 ≠ last then (i + 1 : Int) else cur
    (x.1, cur') :: rankLoop rest (i + 1) cur' x.2

/-- Go map lookup on the built rank map: last write wins, missing keys
read as 0. -/
def rankLookup (l : List (String × Int)) (id : String) : Int :=
  match l.reverse.find? (fun p => p.1 == id) with
  | some p => p.2
  | none => 0

/-- Number of entries whose vote count strictly exceeds `v`. -/
def countGreater (l : List (String × Int)) (v : Int) : Nat :=
  l.countP (fun y => decide (v < y.2))

/-- The `pb.VoteSummary` payload. -/
structure VoteSummary where
  itemId : String
  voteCount : Int
  rank : Int
  currentUserVoted : Bool
deriving DecidableEq, Repr

/-- The items of one retrospective, as listed by
`ListByRetrospective(retroID, "", false)`. -/
def retroItems (s : St) (retroId : String) : List Item :=
  s.items.filter (fun it => it.retrospectiveID == retroId)

/-- `VotingService.GetVoteSummary` (voting_service.go): per-item vote
count, rank and current-user-voted flag, plus the total vote count. -/
def getVoteSummary (s : St) (retroId userId : String) :
    Except Err (List VoteSummary × Int) :=
  if retroId = "" then .error .invalidArgument
  else
    let items := retroItems s retroId
    let votedIds := (s.votes.filter (userVoteMatches retroId userId)).map (fun v => v.itemID)
    let itemVotes := items.map (fun it => (it.itemID, it.voteCount))
    let ranks := rankLoop (sortDesc itemVotes) 0 1 (-1)
    let summaries := items.map (fun it =>
      { itemId := it.itemID
        voteCount := it.voteCount
        rank := rankLookup ranks it.itemID
        currentUserVoted := votedIds.contains it.itemID : VoteSummary })
    .ok (summaries, (items.map (fun it => it.voteCount)).sum)

/-! ## RetrospectiveService status transitions -/

/-- `RetrospectiveService.StartVoting`: DRAFT or ACTIVE → VOTING.  No
`Broadcast` call appears in the handler, so no event is emitted. -/
def startVoting (s : St) (retroId : String) : Except Err Unit × St × List Event :=
  match retroGet s retroId with
  | none => (.error .notFound, s, [])
  | some retro =>
    if ¬ (retro.status = .active ∨ retro.status = .draft) then
      (.error .invalidStatus, s, [])
    else
      (.ok (), { s with retros := retrosUpdate s.retros { retro with status := .voting } }, [])

/-- `RetrospectiveService.StartDiscussion`: VOTING → DISCUSSING.  No
`Broadcast` call appears in the handler. -/
def startDiscussion (s : St) (retroId : String) : Except Err Unit × St × List Event :=
  match retroGet s retroId with
  | none => (.error .notFound, s, [])
  | some retro =>
    if retro.status ≠ .voting then (.error .invalidStatus, s, [])
    else
      (.ok (),
        { s with retros := retrosUpdate s.retros { retro with status := .discussing } }, [])

/-- `RetrospectiveService.Complete`: unconditionally set COMPLETED and
stamp `CompletedAt = time.Now()` — the handler performs no status check.
No `Broadcast` call appears in the handler. -/
def complete (s : St) (now : Int) (retroId : String) :
    Except Err Unit × St × List Event :=
  match retroGet s retroId with
  | none => (.error .notFound, s, [])
  | some retro =>
    (.ok (),
      { s with retros :=
          retrosUpdate s.retros { retro with status := .completed, completedAt := now } }, [])

/-! ## RealtimeService.JoinRetrospective -/

/-- The `pb.JoinRetrospectiveResponse`: presence info (count + list) and
the joining participant's own record. -/
structure JoinResponse where
  participantCount : Int
  participants : List Participant
  currentParticipant : Participant
deriving DecidableEq, Repr

/-- `RealtimeService.JoinRetrospective` (realtime_service.go): build the
participant record (FACILITATOR iff the user is the retrospective's
facilitator), store it via `participantStore.Join`, list the online
participants, broadcast `ParticipantJoined` with that count, persist the
count on the retrospective, and answer with the presence info. -/
def joinRetrospective (s : St) (now : Int) (retroId userId displayName avatarUrl : String) :
    Except Err JoinResponse × St × List Event :=
  if retroId = "" then (.error .invalidArgument, s, [])
  else
    match retroGet s retroId with
    | none => (.error .notFound, s, [])
    | some retro =>
      let name := if displayName = "" then "Mock User" else displayName
      let role := if retro.facilitatorID = userId then Role.facilitator else Role.member
      let participant : Participant :=
        { retrospectiveID := retroId, userID := userId, displayName := name
          avatarURL := avatarUrl, role := role
          joinedAt := now, lastActive := now, isOnline := true }
      let s1 : St := { s with participants := participantsJoin s.participants participant }
      let parts := onlineParticipants s1 retroId
      let s2 : St :=
        { s1 with retros :=
            retrosUpdate s1.retros { retro with participantCount := (parts.length : Int) } }
      (.ok { participantCount := (parts.length : Int)
             participants := parts
             currentParticipant := participant },
        s2,
        [Event.participantJoined userId (parts.length : Int)])

/-! ## EventBroadcaster -/

/-- `EventBroadcaster`: the subscriber registry (`subscribers` map, retro
id to subscriber channels in registration order), the buffered queue of
every channel ever created (capacity 100), the channels `close` has been
called on, and the fresh channel-id counter. -/
structure Hub (α : Type) where
  subs : List (String × List Nat)
  bufs : List (Nat × List α)
  closed : List Nat
  next : Nat
deriving DecidableEq, Repr

/-- The channels registered under a retrospective id (Go map read:
missing key reads as nil). -/
def subsOfL (l : List (String × List Nat)) (r : String) : List Nat :=
  match l.find? (fun p => p.1 == r) with
  | some p => p.2
  | none => []

/-- `subsOfL` on a hub. -/
def subsOf {α : Type} (h : Hub α) (r : String) : List Nat :=
  subsOfL h.subs r

/-- Go map assignment `subscribers[r] = v`: overwrite the entry,
inserting it when absent. -/
def subsSet (l : List (String × List Nat)) (r : String) (v : List Nat) :
    List (String × List Nat) :=
  replaceOrAppend (fun p => p.1 == r) (r, v) l

/-- Buffered contents of a channel. -/
def bufOfL {α : Type} (bufs : List (Nat × List α)) (c : Nat) : List α :=
  match bufs.find? (fun p => p.1 == c) with
  | some p => p.2
  | none => []

/-- `bufOfL` on a hub. -/
def bufOf {α : Type} (h : Hub α) (c : Nat) : List α :=
  bufOfL h.bufs c

/-- `EventBroadcaster.Subscribe`: make a channel with buffer capacity
100 and append it to the retrospective's subscriber slice. -/
def subscribe {α : Type} (h : Hub α) (r : String) : Nat × Hub α :=
  (h.next,
    { subs := subsSet h.subs r (subsOf h r ++ [h.next])
      bufs := h.bufs ++ [(h.next, [])]
      closed := h.closed
      next := h.next + 1 })

/-- `EventBroadcaster.Unsubscribe`: scan the retrospective's slice for
the handle; at the first match remove it, close the channel and stop.
When the handle is not registered nothing happens. -/
def unsubscribe {α : Type} (h : Hub α) (r : String) (c : Nat) : Hub α :=
  if c ∈ subsOf h r then
    { h with subs := subsSet h.subs r ((subsOf h r).erase c)
             closed := c :: h.closed }
  else h

/-- A non-blocking channel send (`select`/`default`): append when the
buffer has room, drop the event otherwise. -/
def send {α : Type} (bufs : List (Nat × List α)) (c : Nat) (e : α) :
    List (Nat × List α) :=
  bufs.map (fun p =>
    if p.1 == c && decide (p.2.length < 100) then (p.1, p.2 ++ [e]) else p)

/-- `EventBroadcaster.Broadcast`: non-blocking send to every channel
registered under the retrospective id. -/
def broadcast {α : Type} (h : Hub α) (r : String) (e : α) : Hub α :=
  { h with bufs := (subsOf h r).foldl (fun bs c => send bs c e) h.bufs }

/-- Every subscribed channel id, over all retrospectives. -/
def allSubIds {α : Type} (h : Hub α) : List Nat :=
  (h.subs.map (fun p => p.2)).flatten

/-- Well-formedness a hub built by `Subscribe`/`Unsubscribe` maintains:
a channel is registered at most once (ids are handed out by a counter),
every registered channel has a buffer entry, and buffer keys are
unique. -/
def WFHub {α : Type} (h : Hub α) : Prop :=
  (allSubIds h).Nodup ∧
  (∀ c, c ∈ allSubIds h → c ∈ h.bufs.map (fun p => p.1)) ∧
  (h.bufs.map (fun p => p.1)).Nodup

/-! ## Concrete fixtures used by witnesses and counterexamples -/

/-- A retrospective in VOTING with limit 1 and one vote already cast by
user `u` (fixture for the vote-limit claim). -/
def fixStLimit : St :=
  { retros := [⟨"R", .voting, ⟨1, false, false⟩, "fac", 0, 0⟩]
    items := [⟨"A", "R", 1⟩, ⟨"B", "R", 0⟩]
    votes := [⟨0, "R", "A", "u"⟩]
    participants := []
    nextVoteID := 1 }

/-- A fresh retrospective in VOTING with limit 5, single votes only, and
one unvoted item (fixture for the double-cast and cast/remove claims). -/
def fixStFresh : St :=
  { retros := [⟨"R", .voting, ⟨5, false, false⟩, "fac", 0, 0⟩]
    items := [⟨"A", "R", 0⟩]
    votes := []
    participants := []
    nextVoteID := 0 }

/-- Items with vote counts 5, 5, 3, 1 (the ranking fixture of the
spec). -/
def fixStRanking : St :=
  { retros := [⟨"R", .voting, ⟨5, false, false⟩, "fac", 0, 0⟩]
    items := [⟨"A", "R", 5⟩, ⟨"B", "R", 5⟩, ⟨"C", "R", 3⟩, ⟨"D", "R", 1⟩]
    votes := []
    participants := []
    nextVoteID := 0 }

/-- A retrospective in DRAFT (fixture for the transition claims). -/
def fixStDraft : St :=
  { retros := [⟨"R", .draft, ⟨5, false, false⟩, "fac", 0, 0⟩]
    items := []
    votes := []
    participants := []
    nextVoteID := 0 }

/-- A retrospective in ACTIVE with one item: both StartVoting and
CastVote succeed from here (fixture for the event-emission claim). -/
def fixStActive : St :=
  { retros := [⟨"R", .active, ⟨5, false, false⟩, "fac", 0, 0⟩]
    items := [⟨"A", "R", 0⟩]
    votes := []
    participants := []
    nextVoteID := 0 }

/-- A retrospective with facilitator `fac` and no participants yet
(fixture for the presence claims). -/
def fixStPresence : St :=
  { retros := [⟨"R", .active, ⟨5, false, false⟩, "fac", 0, 0⟩]
    items := []
    votes := []
    participants := []
    nextVoteID := 0 }

/-- A COMPLETED retrospective whose completion timestamp is 5 (fixture
for the terminality claim). -/
def fixStCompleted : St :=
  { retros := [⟨"R", .completed, ⟨5, false, false⟩, "fac", 0, 5⟩]
    items := []
    votes := []
    participants := []
    nextVoteID := 0 }

/-- A hub with three subscribers on retrospective `R` and one on `S`
(fixture for the broadcaster claims). -/
def fixHub : Hub Nat :=
  { subs := [("R", [0, 1, 2]), ("S", [3])]
    bufs := [(0, []), (1, []), (2, []), (3, [])]
    closed := []
    next := 4 }

/-! ## List-level helper lemmas -/

theorem find?_map_replace {α : Type} (p : α → Bool) (x : α) (hx : p x = true) :
    ∀ l : List α, l.any p = true →
      (l.map (fun y => if p y then x else y)).find? p = some x := by
  intro l
  induction l with
  | nil => intro h; simp at h
  | cons a t ih =>
    intro h
    by_cases ha : p a = true
    · simp [List.find?_cons, ha, hx]
    · have ht : t.any p = true := by
        simpa [List.any_cons, ha] using h
      simp [List.find?_cons, ha, ih ht]

theorem find?_replaceOrAppend_pos {α : Type} (p : α → Bool) (x : α) (l : List α)
    (hx : p x = true) : (replaceOrAppend p x l).find? p = some x := by
  unfold replaceOrAppend
  split
  · exact find?_map_replace p x hx l (by assumption)
  · next h =>
    have hnone : l.find? p = none := by
      apply List.find?_eq_none.2
      intro y hy hpy
      exact h (List.any_eq_true.2 ⟨y, hy, hpy⟩)
    rw [List.find?_append, hnone]
    simp [List.find?, hx]

theorem find?_map_replace_other {α : Type} (p q : α → Bool) (x : α)
    (hqx : q x = false) (hpq : ∀ y, p y = true → q y = false) :
    ∀ l : List α, (l.map (fun y => if p y then x else y)).find? q = l.find? q := by
  intro l
  induction l with
  | nil => rfl
  | cons a t ih =>
    by_cases ha : p a = true
    · have hqa : q a = false := hpq a ha
      simp only [List.map_cons, if_pos ha, List.find?_cons, hqx, hqa, cond_false]
      exact ih
    · simp only [List.map_cons, if_neg ha, List.find?_cons]
      cases hqa : q a
      · simp only [cond_false]
        exact ih
      · simp only [cond_true]

theorem find?_replaceOrAppend_other {α : Type} (p q : α → Bool) (x : α) (l : List α)
    (hqx : q x = false) (hpq : ∀ y, p y = true → q y = false) :
    (replaceOrAppend p x l).find? q = l.find? q := by
  unfold replaceOrAppend
  split
  · exact find?_map_replace_other p q x hqx hpq l
  · rw [List.find?_append]
    cases hfind : l.find? q
    · simp [List.find?, hqx]
    · simp

theorem countP_filter_ne_key {α : Type} (k : α → Nat) (p : α → Bool) :
    ∀ (l : List α) (d : α), d ∈ l → (l.map k).Nodup →
      (l.filter (fun v => k v != k d)).countP p + (if p d then 1 else 0)
        = l.countP p := by
  intro l
  induction l with
  | nil => intro d hd; cases hd
  | cons a t ih =>
    intro d hd hnd
    rw [List.map_cons, List.nodup_cons] at hnd
    obtain ⟨hna, hnt⟩ := hnd
    rcases List.mem_cons.1 hd with rfl | hdt
    · have hfilter : t.filter (fun v => k v != k d) = t := by
        apply List.filter_eq_self.2
        intro v hv
        have hne : k v ≠ k d := by
          intro he
          exact hna (he ▸ List.mem_map_of_mem k hv)
        simpa [bne_iff_ne] using hne
      simp [List.filter_cons, List.countP_cons, hfilter]
    · have hne : k a ≠ k d := by
        intro he
        exact hna (he ▸ List.mem_map_of_mem k hdt)
      have hbne : (k a != k d) = true := by
        simpa [bne_iff_ne] using hne
      have hrec := ih d hdt hnt
      rw [List.filter_cons]
      simp only [hbne, if_true, List.countP_cons]
      omega

/-! ## Item store lemmas -/

theorem itemGetL_map_preserve (i : String) (f : Item → Item)
    (hf : ∀ it, (f it).itemID = it.itemID) :
    ∀ items : List Item,
      itemGetL (items.map (fun it => if it.itemID == i then f it else it)) i
        = (itemGetL items i).map f := by
  intro items
  induction items with
  | nil => rfl
  | cons a t ih =>
    by_cases ha : (a.itemID == i) = true
    · have hfa : ((f a).itemID == i) = true := by
        rw [hf a]; exact ha
      rw [List.map_cons, if_pos ha]
      simp only [itemGetL]
      rw [List.find?_cons_of_pos (p := fun (it : Item) => it.itemID == i) _ hfa,
        List.find?_cons_of_pos (p := fun (it : Item) => it.itemID == i) _ ha]
      rfl
    · rw [List.map_cons, if_neg ha]
      simp only [itemGetL]
      rw [List.find?_cons_of_neg (p := fun (it : Item) => it.itemID == i) _ ha,
        List.find?_cons_of_neg (p := fun (it : Item) => it.itemID == i) _ ha]
      exact ih

theorem itemsIncrement_getL {items items2 : List Item} {i : String}
    (h : itemsIncrement items i = some items2) :
    itemGetL items2 i = (itemGetL items i).map
      (fun it => { it with voteCount := it.voteCount + 1 }) := by
  unfold itemsIncrement at h
  split at h
  · cases h
    exact itemGetL_map_preserve i
      (fun it => { it with voteCount := it.voteCount + 1 }) (fun it => rfl) items
  · cases h

theorem itemsDecrement_getL (items : List Item) (i : String) :
    itemGetL (itemsDecrement items i) i = (itemGetL items i).map
      (fun it => if 0 < it.voteCount then { it with voteCount := it.voteCount - 1 } else it) := by
  unfold itemsDecrement
  exact itemGetL_map_preserve i _ (fun it => by split <;> rfl) items

/-! ## CastVote / RemoveVote success inversions -/

theorem castVote_ok_elim {s s' : St} {evs : List Event} {r i u : String}
    (h : castVote s r i u = (.ok (), s', evs)) :
    r ≠ "" ∧ i ≠ "" ∧
    ∃ retro item items2,
      retroGet s r = some retro ∧
      (retro.status = .voting ∨ retro.status = .active) ∧
      itemGet s i = some item ∧
      item.retrospectiveID = r ∧
      ¬ ((s.votes.find? (voteMatches r i u)).isSome ∧
          retro.votingConfig.allowMultipleVotesPerItem = false) ∧
      (votesCountByUser s r u : Int) < retro.votingConfig.maxVotesPerUser ∧
      itemsIncrement s.items i = some items2 ∧
      s' = { s with
              votes := s.votes ++ [Vote.mk s.nextVoteID r i u]
              nextVoteID := s.nextVoteID + 1
              items := items2 } ∧
      evs = [] := by
  unfold castVote at h
  split at h
  · cases h
  · split at h
    · cases h
    · split at h
      · cases h
      · next retro hretro =>
        split at h
        · cases h
        · next hstatus =>
          split at h
          · cases h
          · next item hitem =>
            split at h
            · cases h
            · next hbelongs =>
              split at h
              · cases h
              · next hdup =>
                split at h
                · cases h
                · next hlimit =>
                  split at h
                  · cases h
                  · next items2 hinc =>
                    have h2 := (Prod.ext_iff.1 h).2
                    exact ⟨by assumption, by assumption, retro, item, items2,
                      hretro, not_not.1 hstatus, hitem, not_not.1 hbelongs, hdup,
                      lt_of_not_ge hlimit, hinc,
                      (Prod.ext_iff.1 h2).1.symm, (Prod.ext_iff.1 h2).2.symm⟩

/-! ## Retrospective store lemmas -/

theorem retroGet_id {s : St} {retroId : String} {retro : Retrospective}
    (h : retroGet s retroId = some retro) : retro.retrospectiveID = retroId := by
  have hp := List.find?_some (p := fun r : Retrospective => r.retrospectiveID == retroId) h
  exact beq_iff_eq.1 hp

theorem retroGet_after_update (s : St) (retroId : String) (r' : Retrospective)
    (hid : r'.retrospectiveID = retroId) :
    retroGet { s with retros := retrosUpdate s.retros r' } retroId = some r' := by
  show (retrosUpdate s.retros r').find? (fun q => q.retrospectiveID == retroId) = some r'
  unfold retrosUpdate
  rw [hid]
  exact find?_replaceOrAppend_pos _ r' s.retros (beq_iff_eq.2 hid)

theorem retroGet_after_update_other (s : St) (id' : String) (r' : Retrospective)
    (hne : id' ≠ r'.retrospectiveID) :
    retroGet { s with retros := retrosUpdate s.retros r' } id' = retroGet s id' := by
  show (retrosUpdate s.retros r').find? (fun q => q.retrospectiveID == id') = _
  unfold retrosUpdate
  apply find?_replaceOrAppend_other
  · exact beq_eq_false_iff_ne.2 (fun he => hne he.symm)
  · intro y hy
    have hy' : y.retrospectiveID = r'.retrospectiveID := beq_iff_eq.1 hy
    exact beq_eq_false_iff_ne.2 (fun he => hne (he ▸ hy' : id' = r'.retrospectiveID))

theorem retroGetL_update (rs : List Retrospective) (x : Retrospective) (id' : String)
    (hid : x.retrospectiveID = id') :
    (retrosUpdate rs x).find? (fun q => q.retrospectiveID == id') = some x := by
  unfold retrosUpdate
  rw [hid]
  exact find?_replaceOrAppend_pos _ x rs (beq_iff_eq.2 hid)

theorem retroGetL_update_other (rs : List Retrospective) (x : Retrospective) (id' : String)
    (hne : id' ≠ x.retrospectiveID) :
    (retrosUpdate rs x).find? (fun q => q.retrospectiveID == id')
      = rs.find? (fun q => q.retrospectiveID == id') := by
  unfold retrosUpdate
  apply find?_replaceOrAppend_other
  · exact beq_eq_false_iff_ne.2 (fun he => hne he.symm)
  · intro y hy
    have hy' : y.retrospectiveID = x.retrospectiveID := beq_iff_eq.1 hy
    exact beq_eq_false_iff_ne.2 (fun he => hne (he ▸ hy' : id' = x.retrospectiveID))

/-! ## Claim theorems -/

/-- C1: once a user's stored votes in a retrospective reach
`maxVotesPerUser`, the next CastVote by that user — for any item of the
retrospective, with the other CastVote preconditions satisfied — fails
with `VoteLimitExceeded`, and the stores (in particular the targeted
item's vote count and the set of Vote records) are returned unchanged. -/
theorem c1_vote_limit_exceeded (s : St) (retroId itemId userId : String)
    (retro : Retrospective) (item : Item)
    (hr : retroId ≠ "") (hi : itemId ≠ "")
    (hretro : retroGet s retroId = some retro)
    (hstatus : retro.status = .voting ∨ retro.status = .active)
    (hitem : itemGet s itemId = some item)
    (hbelongs : item.retrospectiveID = retroId)
    (hdup : ¬ ((s.votes.find? (voteMatches retroId itemId userId)).isSome ∧
        retro.votingConfig.allowMultipleVotesPerItem = false))
    (hlimit : (votesCountByUser s retroId userId : Int) ≥
        retro.votingConfig.maxVotesPerUser) :
    castVote s retroId itemId userId = (.error .voteLimitExceeded, s, []) := by
  unfold castVote
  rw [if_neg hr, if_neg hi]
  simp only [hretro]
  rw [if_neg (not_not_intro hstatus)]
  simp only [hitem]
  rw [if_neg (fun hne => hne hbelongs)]
  rw [if_neg hdup]
  rw [if_pos hlimit]

/-- C1 witness: user `u` has used the single allowed vote in `R`; a cast
on item `B` fails `VoteLimitExceeded` and returns the state unchanged. -/
theorem c1_vote_limit_exceeded_witness :
    castVote fixStLimit "R" "B" "u" = (.error .voteLimitExceeded, fixStLimit, []) :=
  c1_vote_limit_exceeded fixStLimit "R" "B" "u"
    ⟨"R", .voting, ⟨1, false, false⟩, "fac", 0, 0⟩ ⟨"B", "R", 0⟩
    (by decide) (by decide) (by decide) (by decide) (by decide) (by decide)
    (by decide) (by decide)

/-- C2: with `allowMultipleVotesPerItem = false`, a successful CastVote
followed by a second CastVote for the same (retro, item, user) leaves
exactly one Vote record for the triple (there was none before), fails
`AlreadyExists` on the second call without touching the state, and has
raised the item's vote count by exactly 1. -/
theorem c2_double_cast (s s1 : St) (evs : List Event) (retroId itemId userId : String)
    (retro : Retrospective)
    (hretro : retroGet s retroId = some retro)
    (hmulti : retro.votingConfig.allowMultipleVotesPerItem = false)
    (hok : castVote s retroId itemId userId = (.ok (), s1, evs)) :
    votesForTriple s retroId itemId userId = 0 ∧
    votesForTriple s1 retroId itemId userId = 1 ∧
    castVote s1 retroId itemId userId = (.error .alreadyExists, s1, []) ∧
    (itemGet s1 itemId).map Item.voteCount
      = (itemGet s itemId).map (fun it => it.voteCount + 1) := by
  obtain ⟨hr, hi, retro', item, items2, hretro', hstatus, hitem, hbelongs, hdup,
    hlimit, hinc, hs1, hevs⟩ := castVote_ok_elim hok
  rw [hretro] at hretro'
  injection hretro' with hretro'
  subst hretro'
  have hfind : s.votes.find? (voteMatches retroId itemId userId) = none := by
    cases hcase : s.votes.find? (voteMatches retroId itemId userId) with
    | none => rfl
    | some v => exact absurd ⟨by simp [hcase], hmulti⟩ hdup
  have hfilter0 : s.votes.filter (voteMatches retroId itemId userId) = [] := by
    rw [List.filter_eq_nil_iff]
    intro v hv
    exact fun hp => (List.find?_eq_none.1 hfind v hv) hp
  have h0 : votesForTriple s retroId itemId userId = 0 := by
    unfold votesForTriple
    rw [hfilter0]
    rfl
  have hvmk : voteMatches retroId itemId userId (Vote.mk s.nextVoteID retroId itemId userId)
      = true := by
    simp [voteMatches]
  have h1 : votesForTriple s1 retroId itemId userId = 1 := by
    subst hs1
    unfold votesForTriple
    simp only [List.filter_append, hfilter0, hvmk, List.filter_cons]
    simp
  have hretro1 : retroGet s1 retroId = some retro := by
    subst hs1
    exact hretro
  have hitem1 : itemGet s1 itemId = some { item with voteCount := item.voteCount + 1 } := by
    subst hs1
    show itemGetL items2 itemId = _
    rw [itemsIncrement_getL hinc]
    simp only [itemGet] at hitem
    rw [hitem]
    rfl
  have hfind1 : (s1.votes.find? (voteMatches retroId itemId userId)).isSome = true := by
    subst hs1
    show ((s.votes ++ [Vote.mk s.nextVoteID retroId itemId userId]).find? _).isSome = true
    rw [List.find?_append, hfind]
    simp [List.find?, hvmk]
  refine ⟨h0, h1, ?_, ?_⟩
  · unfold castVote
    rw [if_neg hr, if_neg hi]
    simp only [hretro1]
    rw [if_neg (not_not_intro hstatus)]
    simp only [hitem1]
    rw [if_neg (fun hne => hne (by simpa using hbelongs))]
    rw [if_pos ⟨hfind1, hmulti⟩]
  · rw [hitem1, hitem]
    rfl

/-- C2 witness: in the fresh fixture, casting twice on item `A` yields
one Vote, an `AlreadyExists` failure, and a vote count of exactly 1. -/
theorem c2_double_cast_witness :
    votesForTriple fixStFresh "R" "A" "u" = 0 ∧
    votesForTriple (castVote fixStFresh "R" "A" "u").2.1 "R" "A" "u" = 1 ∧
    castVote (castVote fixStFresh "R" "A" "u").2.1 "R" "A" "u"
      = (.error .alreadyExists, (castVote fixStFresh "R" "A" "u").2.1, []) ∧
    (itemGet (castVote fixStFresh "R" "A" "u").2.1 "A").map Item.voteCount
      = (itemGet fixStFresh "A").map (fun it => it.voteCount + 1) :=
  c2_double_cast fixStFresh (castVote fixStFresh "R" "A" "u").2.1
    (castVote fixStFresh "R" "A" "u").2.2 "R" "A" "u"
    ⟨"R", .voting, ⟨5, false, false⟩, "fac", 0, 0⟩
    (by decide) (by decide) (by decide)

/-- C4: for an existing retrospective, StartVoting succeeds (setting
VOTING) exactly from DRAFT or ACTIVE and otherwise fails `InvalidStatus`
without mutation; StartDiscussion succeeds (setting DISCUSSING) exactly
from VOTING and otherwise fails `InvalidStatus` without mutation;
Complete succeeds from any status, setting COMPLETED and recording the
completion timestamp. -/
theorem c4_status_transitions (s : St) (now : Int) (retroId : String)
    (retro : Retrospective) (hretro : retroGet s retroId = some retro) :
    ((retro.status = .draft ∨ retro.status = .active) →
      startVoting s retroId =
        (.ok (), { s with retros := retrosUpdate s.retros { retro with status := .voting } },
          []) ∧
      retroGet (startVoting s retroId).2.1 retroId = some { retro with status := .voting }) ∧
    (¬ (retro.status = .draft ∨ retro.status = .active) →
      startVoting s retroId = (.error .invalidStatus, s, [])) ∧
    (retro.status = .voting →
      startDiscussion s retroId =
        (.ok (),
          { s with retros := retrosUpdate s.retros { retro with status := .discussing } },
          []) ∧
      retroGet (startDiscussion s retroId).2.1 retroId
        = some { retro with status := .discussing }) ∧
    (retro.status ≠ .voting →
      startDiscussion s retroId = (.error .invalidStatus, s, [])) ∧
    (complete s now retroId =
      (.ok (),
        { s with retros :=
            retrosUpdate s.retros { retro with status := .completed, completedAt := now } },
        []) ∧
      retroGet (complete s now retroId).2.1 retroId
        = some { retro with status := .completed, completedAt := now }) := by
  refine ⟨?_, ?_, ?_, ?_, ?_⟩
  · intro hst
    have hsv : startVoting s retroId =
        (.ok (), { s with retros := retrosUpdate s.retros { retro with status := .voting } },
          []) := by
      unfold startVoting
      simp only [hretro]
      rw [if_neg (not_not_intro hst.symm)]
    refine ⟨hsv, ?_⟩
    rw [hsv]
    exact retroGet_after_update s retroId _ (by exact @retroGet_id s retroId retro hretro)
  · intro hst
    unfold startVoting
    simp only [hretro]
    rw [if_pos (fun hor => hst hor.symm)]
  · intro hst
    have hsd : startDiscussion s retroId =
        (.ok (),
          { s with retros := retrosUpdate s.retros { retro with status := .discussing } },
          []) := by
      unfold startDiscussion
      simp only [hretro]
      rw [if_neg (not_not_intro hst)]
    refine ⟨hsd, ?_⟩
    rw [hsd]
    exact retroGet_after_update s retroId _ (by exact @retroGet_id s retroId retro hretro)
  · intro hst
    unfold startDiscussion
    simp only [hretro]
    rw [if_pos hst]
  · have hco : complete s now retroId =
        (.ok (),
          { s with retros :=
              retrosUpdate s.retros { retro with status := .completed, completedAt := now } },
          []) := by
      unfold complete
      simp only [hretro]
    refine ⟨hco, ?_⟩
    rw [hco]
    exact retroGet_after_update s retroId _ (by exact @retroGet_id s retroId retro hretro)

/-- C4 witness: the DRAFT fixture, where StartVoting succeeds,
StartDiscussion fails, and Complete succeeds with timestamp 7. -/
theorem c4_status_transitions_witness :
    ((RStatus.draft = RStatus.draft ∨ RStatus.draft = RStatus.active) →
      startVoting fixStDraft "R" =
        (.ok (),
          { fixStDraft with
              retros := retrosUpdate fixStDraft.retros
                ⟨"R", .voting, ⟨5, false, false⟩, "fac", 0, 0⟩ }, []) ∧
      retroGet (startVoting fixStDraft "R").2.1 "R"
        = some ⟨"R", .voting, ⟨5, false, false⟩, "fac", 0, 0⟩) ∧
    (¬ (RStatus.draft = RStatus.draft ∨ RStatus.draft = RStatus.active) →
      startVoting fixStDraft "R" = (.error .invalidStatus, fixStDraft, [])) ∧
    (RStatus.draft = RStatus.voting →
      startDiscussion fixStDraft "R" =
        (.ok (),
          { fixStDraft with
              retros := retrosUpdate fixStDraft.retros
                ⟨"R", .discussing, ⟨5, false, false⟩, "fac", 0, 0⟩ }, []) ∧
      retroGet (startDiscussion fixStDraft "R").2.1 "R"
        = some ⟨"R", .discussing, ⟨5, false, false⟩, "fac", 0, 0⟩) ∧
    (RStatus.draft ≠ RStatus.voting →
      startDiscussion fixStDraft "R" = (.error .invalidStatus, fixStDraft, [])) ∧
    (complete fixStDraft 7 "R" =
      (.ok (),
        { fixStDraft with
            retros := retrosUpdate fixStDraft.retros
              ⟨"R", .completed, ⟨5, false, false⟩, "fac", 0, 7⟩ }, []) ∧
      retroGet (complete fixStDraft 7 "R").2.1 "R"
        = some ⟨"R", .completed, ⟨5, false, false⟩, "fac", 0, 7⟩) :=
  c4_status_transitions fixStDraft 7 "R"
    ⟨"R", .draft, ⟨5, false, false⟩, "fac", 0, 0⟩ (by decide)

/-! ## Status monotonicity helpers -/

theorem statusRank_le_five (st : RStatus) : statusRank st ≤ 5 := by
  cases st <;> simp [statusRank]

theorem statusRank_startVoting (s : St) (id r' : String) (ρ ρ' : Retrospective)
    (hρ : retroGet s r' = some ρ)
    (hρ' : retroGet (startVoting s id).2.1 r' = some ρ') :
    statusRank ρ.status ≤ statusRank ρ'.status := by
  unfold startVoting at hρ'
  cases hget : retroGet s id with
  | none =>
    simp only [hget] at hρ'
    rw [hρ] at hρ'
    injection hρ' with hρ'
    rw [hρ']
  | some ρ0 =>
    simp only [hget] at hρ'
    by_cases hst : ¬ (ρ0.status = .active ∨ ρ0.status = .draft)
    · rw [if_pos hst] at hρ'
      rw [hρ] at hρ'
      injection hρ' with hρ'
      rw [hρ']
    · rw [if_neg hst] at hρ'
      by_cases hr : r' = ρ0.retrospectiveID
      · subst hr
        rw [retroGet_after_update s _ _ rfl] at hρ'
        injection hρ' with hρ'
        have hid := retroGet_id hget
        rw [hid] at hρ
        rw [hget] at hρ
        injection hρ with hρ
        rcases not_not.1 hst with h2 | h2 <;>
          rw [← hρ', ← hρ, h2] <;> simp [statusRank]
      · rw [retroGet_after_update_other s r' { ρ0 with status := RStatus.voting } hr] at hρ'
        rw [hρ] at hρ'
        injection hρ' with hρ'
        rw [hρ']

theorem statusRank_startDiscussion (s : St) (id r' : String) (ρ ρ' : Retrospective)
    (hρ : retroGet s r' = some ρ)
    (hρ' : retroGet (startDiscussion s id).2.1 r' = some ρ') :
    statusRank ρ.status ≤ statusRank ρ'.status := by
  unfold startDiscussion at hρ'
  cases hget : retroGet s id with
  | none =>
    simp only [hget] at hρ'
    rw [hρ] at hρ'
    injection hρ' with hρ'
    rw [hρ']
  | some ρ0 =>
    simp only [hget] at hρ'
    by_cases hst : ρ0.status ≠ .voting
    · rw [if_pos hst] at hρ'
      rw [hρ] at hρ'
      injection hρ' with hρ'
      rw [hρ']
    · rw [if_neg hst] at hρ'
      by_cases hr : r' = ρ0.retrospectiveID
      · subst hr
        rw [retroGet_after_update s _ _ rfl] at hρ'
        injection hρ' with hρ'
        have hid := retroGet_id hget
        rw [hid] at hρ
        rw [hget] at hρ
        injection hρ with hρ
        rw [← hρ', ← hρ, not_not.1 hst]
        simp [statusRank]
      · rw [retroGet_after_update_other s r' { ρ0 with status := RStatus.discussing } hr] at hρ'
        rw [hρ] at hρ'
        injection hρ' with hρ'
        rw [hρ']

theorem statusRank_complete (s : St) (now : Int) (id r' : String) (ρ ρ' : Retrospective)
    (hρ : retroGet s r' = some ρ)
    (hρ' : retroGet (complete s now id).2.1 r' = some ρ') :
    statusRank ρ.status ≤ statusRank ρ'.status := by
  unfold complete at hρ'
  cases hget : retroGet s id with
  | none =>
    simp only [hget] at hρ'
    rw [hρ] at hρ'
    injection hρ' with hρ'
    rw [hρ']
  | some ρ0 =>
    simp only [hget] at hρ'
    by_cases hr : r' = ρ0.retrospectiveID
    · subst hr
      rw [retroGet_after_update s _ _ rfl] at hρ'
      injection hρ' with hρ'
      rw [← hρ']
      exact statusRank_le_five _
    · rw [retroGet_after_update_other s r'
          { ρ0 with status := RStatus.completed, completedAt := now } hr] at hρ'
      rw [hρ] at hρ'
      injection hρ' with hρ'
      rw [hρ']

theorem castVote_retros (s : St) (r i u : String) :
    (castVote s r i u).2.1.retros = s.retros := by
  unfold castVote
  repeat' split
  all_goals rfl

theorem removeVote_retros (s : St) (r i u : String) :
    (removeVote s r i u).2.1.retros = s.retros := by
  unfold removeVote
  repeat' split
  all_goals rfl

theorem joinRetrospective_status (s : St) (now : Int)
    (retroId userId dn av r' : String) :
    (retroGet (joinRetrospective s now retroId userId dn av).2.1 r').map
        Retrospective.status
      = (retroGet s r').map Retrospective.status := by
  unfold joinRetrospective
  split
  · rfl
  · cases hget : retroGet s retroId with
    | none => rfl
    | some retro =>
      simp only [retroGet]
      by_cases hr : r' = retro.retrospectiveID
      · subst hr
        rw [retroGetL_update]
        · have hid := retroGet_id hget
          simp only [retroGet] at hget
          rw [hid, hget]
          rfl
        · rfl
      · rw [retroGetL_update_other]
        exact hr

/-- C5: the status-transition handlers and CastVote contain no
`Broadcast` call (the `BroadcastStatusChanged` / `BroadcastVoteCast`
helpers exist in realtime_service.go but nothing invokes them): at the
failing input — a successful StartVoting, StartDiscussion, Complete and
a successful CastVote — the list of events handed to the broadcaster is
empty, so no `StatusChanged` and no `VoteCast` event reaches any
subscriber. -/
theorem c5_no_events_emitted :
    (startVoting fixStActive "R").1 = .ok () ∧
    (startVoting fixStActive "R").2.2 = ([] : List Event) ∧
    (castVote fixStActive "R" "A" "u").1 = .ok () ∧
    (castVote fixStActive "R" "A" "u").2.2 = ([] : List Event) ∧
    (startDiscussion (startVoting fixStActive "R").2.1 "R").1 = .ok () ∧
    (startDiscussion (startVoting fixStActive "R").2.1 "R").2.2 = ([] : List Event) ∧
    (complete fixStActive 3 "R").1 = .ok () ∧
    (complete fixStActive 3 "R").2.2 = ([] : List Event) := by
  decide

/-- C8 counterexample: on a COMPLETED retrospective whose completion
timestamp is 5, the requested transition `Complete` does not fail — it
succeeds and overwrites the completion timestamp with the new time 9,
refuting "any requested transition fails and leaves the status and
completion timestamp unchanged". -/
theorem c8_counterexample :
    (complete fixStCompleted 9 "R").1 = .ok () ∧
    (retroGet fixStCompleted "R").map Retrospective.completedAt = some 5 ∧
    (retroGet (complete fixStCompleted 9 "R").2.1 "R").map Retrospective.completedAt
      = some 9 := by
  decide

/-- C8 (amended): from COMPLETED, StartVoting and StartDiscussion fail
with `InvalidStatus` leaving the state unchanged, while Complete
succeeds, keeping the status COMPLETED but refreshing the completion
timestamp; and the status never regresses: the three transitions only
move `statusRank` forward, CastVote and RemoveVote never touch the
retrospective store, and Join preserves every status. -/
theorem c8_completed_terminality (s : St) (now : Int) (retroId : String)
    (retro : Retrospective)
    (hretro : retroGet s retroId = some retro) (hst : retro.status = .completed) :
    startVoting s retroId = (.error .invalidStatus, s, []) ∧
    startDiscussion s retroId = (.error .invalidStatus, s, []) ∧
    (complete s now retroId).1 = .ok () ∧
    retroGet (complete s now retroId).2.1 retroId
      = some { retro with status := .completed, completedAt := now } ∧
    (∀ (s' : St) (id r' : String) (ρ ρ' : Retrospective),
      retroGet s' r' = some ρ → retroGet (startVoting s' id).2.1 r' = some ρ' →
        statusRank ρ.status ≤ statusRank ρ'.status) ∧
    (∀ (s' : St) (id r' : String) (ρ ρ' : Retrospective),
      retroGet s' r' = some ρ → retroGet (startDiscussion s' id).2.1 r' = some ρ' →
        statusRank ρ.status ≤ statusRank ρ'.status) ∧
    (∀ (s' : St) (n : Int) (id r' : String) (ρ ρ' : Retrospective),
      retroGet s' r' = some ρ → retroGet (complete s' n id).2.1 r' = some ρ' →
        statusRank ρ.status ≤ statusRank ρ'.status) ∧
    (∀ (s' : St) (a b c : String), (castVote s' a b c).2.1.retros = s'.retros) ∧
    (∀ (s' : St) (a b c : String), (removeVote s' a b c).2.1.retros = s'.retros) ∧
    (∀ (s' : St) (n : Int) (a b c d r' : String),
      (retroGet (joinRetrospective s' n a b c d).2.1 r').map Retrospective.status
        = (retroGet s' r').map Retrospective.status) := by
  have hc4 := c4_status_transitions s now retroId retro hretro
  refine ⟨?_, ?_, by rw [hc4.2.2.2.2.1], hc4.2.2.2.2.2, ?_, ?_, ?_, ?_, ?_, ?_⟩
  · exact hc4.2.1 (by simp [hst])
  · exact hc4.2.2.2.1 (by simp [hst])
  · intro s' id r' ρ ρ' hρ hρ'
    exact statusRank_startVoting s' id r' ρ ρ' hρ hρ'
  · intro s' id r' ρ ρ' hρ hρ'
    exact statusRank_startDiscussion s' id r' ρ ρ' hρ hρ'
  · intro s' n id r' ρ ρ' hρ hρ'
    exact statusRank_complete s' n id r' ρ ρ' hρ hρ'
  · intro s' a b c
    exact castVote_retros s' a b c
  · intro s' a b c
    exact removeVote_retros s' a b c
  · intro s' n a b c d r'
    exact joinRetrospective_status s' n a b c d r'

/-- C8 witness: the COMPLETED fixture at time 9. -/
theorem c8_completed_terminality_witness :
    startVoting fixStCompleted "R" = (.error .invalidStatus, fixStCompleted, []) ∧
    startDiscussion fixStCompleted "R" = (.error .invalidStatus, fixStCompleted, []) ∧
    (complete fixStCompleted 9 "R").1 = .ok () ∧
    retroGet (complete fixStCompleted 9 "R").2.1 "R"
      = some ⟨"R", .completed, ⟨5, false, false⟩, "fac", 0, 9⟩ ∧
    (∀ (s' : St) (id r' : String) (ρ ρ' : Retrospective),
      retroGet s' r' = some ρ → retroGet (startVoting s' id).2.1 r' = some ρ' →
        statusRank ρ.status ≤ statusRank ρ'.status) ∧
    (∀ (s' : St) (id r' : String) (ρ ρ' : Retrospective),
      retroGet s' r' = some ρ → retroGet (startDiscussion s' id).2.1 r' = some ρ' →
        statusRank ρ.status ≤ statusRank ρ'.status) ∧
    (∀ (s' : St) (n : Int) (id r' : String) (ρ ρ' : Retrospective),
      retroGet s' r' = some ρ → retroGet (complete s' n id).2.1 r' = some ρ' →
        statusRank ρ.status ≤ statusRank ρ'.status) ∧
    (∀ (s' : St) (a b c : String), (castVote s' a b c).2.1.retros = s'.retros) ∧
    (∀ (s' : St) (a b c : String), (removeVote s' a b c).2.1.retros = s'.retros) ∧
    (∀ (s' : St) (n : Int) (a b c d r' : String),
      (retroGet (joinRetrospective s' n a b c d).2.1 r').map Retrospective.status
        = (retroGet s' r').map Retrospective.status) :=
  c8_completed_terminality fixStCompleted 9 "R"
    ⟨"R", .completed, ⟨5, false, false⟩, "fac", 0, 5⟩ (by decide) (by decide)

theorem removeVote_ok_elim {s s' : St} {evs : List Event} {r i u : String}
    (h : removeVote s r i u = (.ok (), s', evs)) :
    r ≠ "" ∧ i ≠ "" ∧
    ∃ d, s.votes.find? (voteMatches r i u) = some d ∧
      s' = { s with
              votes := s.votes.filter (fun v => v.voteID != d.voteID)
              items := itemsDecrement s.items i } ∧
      evs = [] := by
  unfold removeVote at h
  split at h
  · cases h
  · split at h
    · cases h
    · split at h
      · cases h
      · next d hd =>
        have h2 := (Prod.ext_iff.1 h).2
        exact ⟨by assumption, by assumption, d, hd,
          (Prod.ext_iff.1 h2).1.symm, (Prod.ext_iff.1 h2).2.symm⟩

/-- C6: a successful CastVote immediately followed by a successful
RemoveVote for the same (item, user) restores the item's vote count, and
GetUserVotes afterwards reports the same votesCast and votesRemaining as
before the pair.  The uniqueness hypotheses hold in every state the
stores can reach: vote ids are handed out by a fresh counter, and vote
counts never go below 0 (items start at 0 and decrement is floored). -/
theorem c6_cast_remove_roundtrip (s s1 s2 : St) (ev1 ev2 : List Event)
    (retroId itemId userId : String)
    (hvnd : (s.votes.map Vote.voteID).Nodup)
    (hfresh : ∀ v ∈ s.votes, v.voteID ≠ s.nextVoteID)
    (hnn : ∀ it, itemGet s itemId = some it → 0 ≤ it.voteCount)
    (hcast : castVote s retroId itemId userId = (.ok (), s1, ev1))
    (hremove : removeVote s1 retroId itemId userId = (.ok (), s2, ev2)) :
    (itemGet s2 itemId).map Item.voteCount = (itemGet s itemId).map Item.voteCount ∧
    (getUserVotes s2 retroId userId userId).map (fun x => (x.votesCast, x.votesRemaining))
      = (getUserVotes s retroId userId userId).map
          (fun x => (x.votesCast, x.votesRemaining)) := by
  obtain ⟨hr, hi, retro, item, items2, hretro, hstatus, hitem, hbelongs, hdup,
    hlimit, hinc, hs1, hev1⟩ := castVote_ok_elim hcast
  obtain ⟨_, _, d, hd, hs2, hev2⟩ := removeVote_ok_elim hremove
  have hvnd1 : (s1.votes.map Vote.voteID).Nodup := by
    rw [hs1]
    rw [List.map_append]
    refine List.Nodup.append hvnd (by simp) ?_
    intro a ha hb
    obtain ⟨v, hv, rfl⟩ := List.mem_map.1 ha
    simp only [List.map_cons, List.map_nil, List.mem_singleton] at hb
    exact hfresh v hv hb
  have hdmem : d ∈ s1.votes := List.mem_of_find?_eq_some hd
  have hdp : voteMatches retroId itemId userId d = true := List.find?_some hd
  have hduser : userVoteMatches retroId userId d = true := by
    simp only [voteMatches, Bool.and_eq_true] at hdp
    simp [userVoteMatches, hdp.1.1, hdp.2]
  -- the item's vote count is restored
  have hitemcount : (itemGet s2 itemId).map Item.voteCount
      = (itemGet s itemId).map Item.voteCount := by
    have hzero : 0 ≤ item.voteCount := hnn item hitem
    have hs2items : s2.items = itemsDecrement items2 itemId := by
      rw [hs2, hs1]
    have hget2 : itemGetL items2 itemId
        = some { item with voteCount := item.voteCount + 1 } := by
      rw [itemsIncrement_getL hinc]
      simp only [itemGet] at hitem
      rw [hitem]
      rfl
    show (itemGetL s2.items itemId).map Item.voteCount = _
    rw [hs2items, itemsDecrement_getL, hget2]
    simp only [itemGet]
    rw [show itemGetL s.items itemId = some item from hitem]
    have hpos : (0 : Int) < item.voteCount + 1 := by omega
    simp [hpos]
  -- the per-user vote count is restored
  have hcount : (s2.votes.filter (userVoteMatches retroId userId)).length
      = (s.votes.filter (userVoteMatches retroId userId)).length := by
    have hkey := countP_filter_ne_key Vote.voteID (userVoteMatches retroId userId)
      s1.votes d hdmem hvnd1
    rw [hduser, if_pos rfl] at hkey
    have hs1votes : s1.votes.countP (userVoteMatches retroId userId)
        = s.votes.countP (userVoteMatches retroId userId) + 1 := by
      rw [hs1]
      rw [List.countP_append]
      simp [List.countP_cons, userVoteMatches]
    have hs2votes : s2.votes = s1.votes.filter (fun v => v.voteID != d.voteID) := by
      rw [hs2, hs1]
    rw [← List.countP_eq_length_filter, ← List.countP_eq_length_filter, hs2votes]
    omega
  refine ⟨hitemcount, ?_⟩
  have hretro2 : retroGet s2 retroId = some retro := by
    rw [hs2, hs1]
    exact hretro
  simp only [getUserVotes, if_neg hr, hretro2, hretro, ite_self, Except.map, hcount]

/-- C6 witness: cast then remove on item `A` in the fresh fixture. -/
theorem c6_cast_remove_roundtrip_witness :
    (itemGet (removeVote (castVote fixStFresh "R" "A" "u").2.1 "R" "A" "u").2.1 "A").map
        Item.voteCount
      = (itemGet fixStFresh "A").map Item.voteCount ∧
    (getUserVotes (removeVote (castVote fixStFresh "R" "A" "u").2.1 "R" "A" "u").2.1
        "R" "u" "u").map (fun x => (x.votesCast, x.votesRemaining))
      = (getUserVotes fixStFresh "R" "u" "u").map
          (fun x => (x.votesCast, x.votesRemaining)) :=
  c6_cast_remove_roundtrip fixStFresh (castVote fixStFresh "R" "A" "u").2.1
    (removeVote (castVote fixStFresh "R" "A" "u").2.1 "R" "A" "u").2.1
    (castVote fixStFresh "R" "A" "u").2.2
    (removeVote (castVote fixStFresh "R" "A" "u").2.1 "R" "A" "u").2.2
    "R" "A" "u"
    (by decide) (by decide)
    (by
      intro it hit
      have h : some (⟨"A", "R", 0⟩ : Item) = some it := hit
      injection h with h
      subst h
      decide)
    rfl rfl

/-- C7 counterexample: Join at time 1 stores joinedAt = 1, but a second
Join of the same (retro, user) at time 2 overwrites the stored record,
so joinedAt becomes 2 — the store's Join stamps `joinedAt` on every
call, not only when the record is newly created. -/
theorem c7_counterexample :
    (((joinRetrospective fixStPresence 1 "R" "u" "n" "a").2.1.participants.find?
        (fun p => p.retrospectiveID == "R" && p.userID == "u")).map
      Participant.joinedAt = some 1) ∧
    (((joinRetrospective
          (joinRetrospective fixStPresence 1 "R" "u" "n" "a").2.1
          2 "R" "u" "n" "a").2.1.participants.find?
        (fun p => p.retrospectiveID == "R" && p.userID == "u")).map
      Participant.joinedAt = some 2) := by
  decide

/-- C7 (amended): Join inserts or overwrites the (retroId, userId)
presence record with isOnline = true and sets joinedAt and lastActive to
the current time on every call — also when the participant was already
present; the role is FACILITATOR exactly when the joining user is the
retrospective's facilitator, else MEMBER; and the participant count
returned and broadcast equals the number of currently online
participants of the retrospective after the join. -/
theorem c7_join_presence (s : St) (now : Int) (retroId userId dn av : String)
    (retro : Retrospective)
    (hne : retroId ≠ "") (hretro : retroGet s retroId = some retro) :
    ∃ resp : JoinResponse,
      (joinRetrospective s now retroId userId dn av).1 = .ok resp ∧
      resp.currentParticipant.isOnline = true ∧
      resp.currentParticipant.joinedAt = now ∧
      resp.currentParticipant.lastActive = now ∧
      (resp.currentParticipant.role = .facilitator ↔ retro.facilitatorID = userId) ∧
      resp.participantCount
        = ((onlineParticipants (joinRetrospective s now retroId userId dn av).2.1
            retroId).length : Int) ∧
      resp.participants
        = onlineParticipants (joinRetrospective s now retroId userId dn av).2.1 retroId ∧
      (joinRetrospective s now retroId userId dn av).2.2
        = [Event.participantJoined userId resp.participantCount] ∧
      ((joinRetrospective s now retroId userId dn av).2.1.participants.find?
          (fun p => p.retrospectiveID == retroId && p.userID == userId))
        = some resp.currentParticipant := by
  obtain ⟨resp, hresp⟩ :
      ∃ resp, (joinRetrospective s now retroId userId dn av).1 = .ok resp := by
    simp only [joinRetrospective, if_neg hne, hretro]
    exact ⟨_, rfl⟩
  have hresp' := hresp
  simp only [joinRetrospective, if_neg hne, hretro] at hresp'
  injection hresp' with hresp'
  subst hresp'
  refine ⟨_, hresp, rfl, rfl, rfl, ?_, ?_, ?_, ?_, ?_⟩
  · by_cases hf : retro.facilitatorID = userId
    · simp [hf]
    · simp [hf]
  · simp only [joinRetrospective, if_neg hne, hretro]
    rfl
  · simp only [joinRetrospective, if_neg hne, hretro]
    rfl
  · simp only [joinRetrospective, if_neg hne, hretro]
  · simp only [joinRetrospective, if_neg hne, hretro]
    exact find?_replaceOrAppend_pos _ _ s.participants (by simp)

/-- C7 witness: joining the presence fixture as a non-facilitator. -/
theorem c7_join_presence_witness :
    ∃ resp : JoinResponse,
      (joinRetrospective fixStPresence 1 "R" "u" "n" "a").1 = .ok resp ∧
      resp.currentParticipant.isOnline = true ∧
      resp.currentParticipant.joinedAt = 1 ∧
      resp.currentParticipant.lastActive = 1 ∧
      (resp.currentParticipant.role = .facilitator ↔ "fac" = "u") ∧
      resp.participantCount
        = ((onlineParticipants (joinRetrospective fixStPresence 1 "R" "u" "n" "a").2.1
            "R").length : Int) ∧
      resp.participants
        = onlineParticipants (joinRetrospective fixStPresence 1 "R" "u" "n" "a").2.1 "R" ∧
      (joinRetrospective fixStPresence 1 "R" "u" "n" "a").2.2
        = [Event.participantJoined "u" resp.participantCount] ∧
      ((joinRetrospective fixStPresence 1 "R" "u" "n" "a").2.1.participants.find?
          (fun p => p.retrospectiveID == "R" && p.userID == "u"))
        = some resp.currentParticipant :=
  c7_join_presence fixStPresence 1 "R" "u" "n" "a"
    ⟨"R", .active, ⟨5, false, false⟩, "fac", 0, 0⟩ (by decide) (by decide)

/-! ## Ranking lemmas -/

theorem insertDesc_perm (x : String × Int) :
    ∀ l, List.Perm (insertDesc x l) (x :: l) := by
  intro l
  induction l with
  | nil => exact List.Perm.refl _
  | cons y ys ih =>
    unfold insertDesc
    split
    · exact List.Perm.refl _
    · exact (List.Perm.cons y ih).trans (List.Perm.swap x y ys)

theorem sortDesc_perm (l : List (String × Int)) : List.Perm (sortDesc l) l := by
  induction l with
  | nil => exact List.Perm.refl _
  | cons x t ih =>
    exact (insertDesc_perm x (sortDesc t)).trans (List.Perm.cons x ih)

theorem insertDesc_pairwise (x : String × Int) :
    ∀ l, l.Pairwise (fun a b : String × Int => b.2 ≤ a.2) →
      (insertDesc x l).Pairwise (fun a b : String × Int => b.2 ≤ a.2) := by
  intro l
  induction l with
  | nil =>
    intro _
    exact List.pairwise_singleton _ x
  | cons y ys ih =>
    intro hp
    rw [List.pairwise_cons] at hp
    obtain ⟨hy, hys⟩ := hp
    unfold insertDesc
    split
    · next hle =>
      rw [List.pairwise_cons]
      refine ⟨?_, List.pairwise_cons.2 ⟨hy, hys⟩⟩
      intro z hz
      rcases List.mem_cons.1 hz with rfl | hz'
      · exact hle
      · exact le_trans (hy z hz') hle
    · next hlt =>
      rw [List.pairwise_cons]
      refine ⟨?_, ih hys⟩
      intro z hz
      rcases List.mem_cons.1 ((insertDesc_perm x ys).mem_iff.1 hz) with rfl | hz'
      · exact le_of_not_le hlt
      · exact hy z hz'

theorem sortDesc_pairwise (l : List (String × Int)) :
    (sortDesc l).Pairwise (fun a b : String × Int => b.2 ≤ a.2) := by
  induction l with
  | nil => exact List.Pairwise.nil
  | cons x t ih => exact insertDesc_pairwise x (sortDesc t) ih

/-- The rank-map loop of `GetVoteSummary`, characterised on a descending
list with non-negative counts: the rank written for an entry is one plus
the number of entries with a strictly greater vote count — which is the
1-based position of the first entry of the tie group in the sorted
order. -/
theorem rankLoop_go (full : List (String × Int))
    (hs : full.Pairwise (fun a b : String × Int => b.2 ≤ a.2))
    (hnn : ∀ x ∈ full, 0 ≤ x.2) :
    ∀ (rest p : List (String × Int)) (cur last : Int),
      full = p ++ rest →
      ((p = [] ∧ cur = 1 ∧ last = -1) ∨
        (∃ q y, p = q ++ [y] ∧ last = y.2 ∧
          cur = 1 + (countGreater full y.2 : Int))) →
      rankLoop rest p.length cur last
        = rest.map (fun x => (x.1, 1 + (countGreater full x.2 : Int))) := by
  intro rest
  induction rest with
  | nil =>
    intro p cur last hfull hinv
    rfl
  | cons x rest' ih =>
    intro p cur last hfull hinv
    have hx_mem : x ∈ full := by
      rw [hfull]
      exact List.mem_append_right p (List.mem_cons_self x rest')
    have hs' : (p ++ x :: rest').Pairwise (fun a b : String × Int => b.2 ≤ a.2) :=
      hfull ▸ hs
    rw [List.pairwise_append] at hs'
    obtain ⟨hsp, hsxr, hcross⟩ := hs'
    have hsx : ∀ z ∈ rest', z.2 ≤ x.2 := (List.pairwise_cons.1 hsxr).1
    have hpx : ∀ a ∈ p, x.2 ≤ a.2 :=
      fun a ha => hcross a ha x (List.mem_cons_self x rest')
    have hsplit : countGreater full x.2
        = (p.countP (fun z => decide (x.2 < z.2)))
          + ((x :: rest').countP (fun z => decide (x.2 < z.2))) := by
      rw [countGreater, hfull, List.countP_append]
    have htail0 : (x :: rest').countP (fun z => decide (x.2 < z.2)) = 0 := by
      rw [List.countP_eq_zero]
      intro z hz
      rcases List.mem_cons.1 hz with rfl | hz'
      · simp
      · simp only [decide_eq_true_eq]
        exact not_lt.2 (hsx z hz')
    have hcur' : (if x.2 ≠ last then ((p.length : Int) + 1) else cur)
        = 1 + (countGreater full x.2 : Int) := by
      rcases hinv with ⟨hp, hcur, hlast⟩ | ⟨q, y, hp, hlast, hcur⟩
      · subst hp
        subst hcur
        subst hlast
        have hxnn := hnn x hx_mem
        rw [if_pos (by omega : x.2 ≠ (-1 : Int))]
        have hG : countGreater full x.2 = 0 := by
          rw [hsplit]
          have hp0 : ([] : List (String × Int)).countP (fun z => decide (x.2 < z.2)) = 0 :=
            rfl
          rw [hp0, htail0]
        rw [hG]
        simp
      · have hy_mem : y ∈ p := by
          rw [hp]
          exact List.mem_append_right q (List.mem_cons_self y [])
        have hxy : x.2 ≤ y.2 := hpx y hy_mem
        by_cases heq : x.2 = y.2
        · rw [if_neg (by rw [hlast]; exact fun h => h heq)]
          rw [hcur, heq]
        · have hlt : x.2 < y.2 := lt_of_le_of_ne hxy heq
          rw [if_pos (by rw [hlast]; exact heq)]
          have hq2 : ∀ a ∈ q, y.2 ≤ a.2 := by
            have hsp' : (q ++ [y]).Pairwise (fun a b : String × Int => b.2 ≤ a.2) :=
              hp ▸ hsp
            rw [List.pairwise_append] at hsp'
            exact fun a ha => hsp'.2.2 a ha y (List.mem_cons_self y [])
          have hple : p.countP (fun z => decide (x.2 < z.2)) = p.length := by
            rw [List.countP_eq_length]
            intro a ha
            simp only [decide_eq_true_eq]
            rcases List.mem_append.1 (hp ▸ ha) with ha' | ha'
            · exact lt_of_lt_of_le hlt (hq2 a ha')
            · have hay : a = y := by simpa using ha'
              rw [hay]
              exact hlt
          rw [hsplit, hple, htail0]
          push_cast
          ring
    simp only [rankLoop]
    rw [hcur']
    rw [List.map_cons]
    refine congrArg _ ?_
    have hlen : p.length + 1 = (p ++ [x]).length := by
      rw [List.length_append]
      rfl
    rw [hlen]
    apply ih (p ++ [x]) _ x.2
    · rw [hfull, List.append_assoc]
      rfl
    · exact Or.inr ⟨p, x, rfl, rfl, rfl⟩

theorem rankLoop_sortDesc (l : List (String × Int)) (hnn : ∀ x ∈ l, 0 ≤ x.2) :
    rankLoop (sortDesc l) 0 1 (-1)
      = (sortDesc l).map (fun x => (x.1, 1 + (countGreater l x.2 : Int))) := by
  have hperm := sortDesc_perm l
  have hnn' : ∀ x ∈ sortDesc l, 0 ≤ x.2 := fun x hx => hnn x (hperm.mem_iff.1 hx)
  have h := rankLoop_go (sortDesc l) (sortDesc_pairwise l) hnn' (sortDesc l) [] 1 (-1)
    rfl (Or.inl ⟨rfl, rfl, rfl⟩)
  rw [show ([] : List (String × Int)).length = 0 from rfl] at h
  rw [h]
  have hG : ∀ v, countGreater (sortDesc l) v = countGreater l v :=
    fun v => hperm.countP_eq _
  simp only [hG]

theorem find?_reverse_map (g : Int → Int) :
    ∀ (m : List (String × Int)) (a : String) (v : Int),
      (m.map Prod.fst).Nodup → (a, v) ∈ m →
      ((m.map (fun x => (x.1, g x.2))).reverse.find? (fun p => p.1 == a))
        = some (a, g v) := by
  intro m
  induction m with
  | nil =>
    intro a v _ hm
    cases hm
  | cons hd t ih =>
    intro a v hnd hm
    rw [List.map_cons, List.nodup_cons] at hnd
    obtain ⟨hh, hnt⟩ := hnd
    rw [List.map_cons, List.reverse_cons, List.find?_append]
    rcases List.mem_cons.1 hm with heq | hmt
    · subst heq
      have hnone : ((t.map (fun x => (x.1, g x.2))).reverse.find?
          (fun p => p.1 == a)) = none := by
        apply List.find?_eq_none.2
        intro z hz hpz
        rw [List.mem_reverse] at hz
        obtain ⟨w, hw, rfl⟩ := List.mem_map.1 hz
        have hwa : w.1 = a := beq_iff_eq.1 hpz
        have hmm : w.1 ∈ t.map Prod.fst := List.mem_map_of_mem Prod.fst hw
        rw [hwa] at hmm
        exact hh hmm
      rw [hnone]
      simp [List.find?]
    · rw [ih a v hnt hmt]
      simp

theorem rankLookup_map (g : Int → Int) (m : List (String × Int)) (a : String) (v : Int)
    (hnd : (m.map Prod.fst).Nodup) (hm : (a, v) ∈ m) :
    rankLookup (m.map (fun x => (x.1, g x.2))) a = g v := by
  unfold rankLookup
  rw [find?_reverse_map g m a v hnd hm]

/-- C3: for every retrospective (items with non-negative counts and
distinct ids, as the stores guarantee), GetVoteSummary succeeds; its
totalVotes is the sum of the items' vote counts, every item's rank is
one plus the number of items with a strictly greater vote count — the
1-based position of the first item of its tie group in the
vote-count-descending order — and items with equal counts share their
rank. -/
theorem c3_vote_summary (s : St) (retroId userId : String)
    (hne : retroId ≠ "")
    (hnn : ∀ it ∈ retroItems s retroId, 0 ≤ it.voteCount)
    (hnd : ((retroItems s retroId).map Item.itemID).Nodup) :
    ∃ res : List VoteSummary × Int,
      getVoteSummary s retroId userId = .ok res ∧
      res.2 = ((retroItems s retroId).map (fun it => it.voteCount)).sum ∧
      (∀ e ∈ res.1, e.rank = 1 + (countGreater
          ((retroItems s retroId).map (fun it => (it.itemID, it.voteCount)))
          e.voteCount : Int)) ∧
      (∀ e ∈ res.1, ∀ e2 ∈ res.1, e.voteCount = e2.voteCount → e.rank = e2.rank) := by
  obtain ⟨res, hres⟩ : ∃ res, getVoteSummary s retroId userId = .ok res := by
    simp only [getVoteSummary, if_neg hne]
    exact ⟨_, rfl⟩
  have hres' := hres
  simp only [getVoteSummary, if_neg hne] at hres'
  injection hres' with hres'
  subst hres'
  have hnnpairs : ∀ x ∈ (retroItems s retroId).map (fun it => (it.itemID, it.voteCount)),
      0 ≤ x.2 := by
    intro x hx
    obtain ⟨it, hit, rfl⟩ := List.mem_map.1 hx
    exact hnn it hit
  have hperm := sortDesc_perm ((retroItems s retroId).map (fun it => (it.itemID, it.voteCount)))
  have hndsorted : ((sortDesc ((retroItems s retroId).map
      (fun it => (it.itemID, it.voteCount)))).map Prod.fst).Nodup := by
    rw [(hperm.map Prod.fst).nodup_iff]
    rw [List.map_map]
    exact hnd
  have hrank : ∀ it ∈ retroItems s retroId,
      rankLookup (rankLoop (sortDesc ((retroItems s retroId).map
          (fun it2 => (it2.itemID, it2.voteCount)))) 0 1 (-1)) it.itemID
        = 1 + (countGreater ((retroItems s retroId).map
            (fun it2 => (it2.itemID, it2.voteCount))) it.voteCount : Int) := by
    intro it hit
    rw [rankLoop_sortDesc _ hnnpairs]
    exact rankLookup_map
      (fun v => 1 + (countGreater ((retroItems s retroId).map
        (fun it2 => (it2.itemID, it2.voteCount))) v : Int))
      _ it.itemID it.voteCount hndsorted
      (hperm.mem_iff.2 (List.mem_map_of_mem _ hit))
  have hmain : ∀ e ∈ ((retroItems s retroId).map (fun it =>
      ({ itemId := it.itemID
         voteCount := it.voteCount
         rank := rankLookup (rankLoop (sortDesc ((retroItems s retroId).map
             (fun it2 => (it2.itemID, it2.voteCount)))) 0 1 (-1)) it.itemID
         currentUserVoted := ((s.votes.filter (userVoteMatches retroId userId)).map
             (fun v => v.itemID)).contains it.itemID } : VoteSummary))),
      e.rank = 1 + (countGreater ((retroItems s retroId).map
          (fun it => (it.itemID, it.voteCount))) e.voteCount : Int) := by
    intro e he
    obtain ⟨it, hit, rfl⟩ := List.mem_map.1 he
    exact hrank it hit
  refine ⟨_, hres, rfl, hmain, ?_⟩
  intro e he e2 he2 hvc
  rw [hmain e he, hmain e2 he2, hvc]

/-- C3 witness: the [5,5,3,1] fixture — ranks are [1,1,3,4] and
totalVotes is 14, as the spec's example requires. -/
theorem c3_vote_summary_witness :
    (∃ res : List VoteSummary × Int,
      getVoteSummary fixStRanking "R" "u" = .ok res ∧
      res.2 = ((retroItems fixStRanking "R").map (fun it => it.voteCount)).sum ∧
      (∀ e ∈ res.1, e.rank = 1 + (countGreater
          ((retroItems fixStRanking "R").map (fun it => (it.itemID, it.voteCount)))
          e.voteCount : Int)) ∧
      (∀ e ∈ res.1, ∀ e2 ∈ res.1, e.voteCount = e2.voteCount → e.rank = e2.rank)) ∧
    (getVoteSummary fixStRanking "R" "u").map (fun r => r.1.map (fun e => e.rank))
      = .ok [1, 1, 3, 4] ∧
    (getVoteSummary fixStRanking "R" "u").map (fun r => r.2) = .ok 14 :=
  ⟨c3_vote_summary fixStRanking "R" "u" (by decide) (by decide) (by decide),
    by decide, by decide⟩

/-! ## Broadcaster lemmas -/

theorem subsOfL_cons (p : String × List Nat) (t : List (String × List Nat)) (X : String) :
    subsOfL (p :: t) X = if (p.1 == X) = true then p.2 else subsOfL t X := by
  unfold subsOfL
  by_cases hx : (p.1 == X) = true
  · rw [List.find?_cons_of_pos (p := fun q : String × List Nat => q.1 == X) _ hx, if_pos hx]
  · rw [List.find?_cons_of_neg (p := fun q : String × List Nat => q.1 == X) _ hx, if_neg hx]

theorem subsOfL_subset_flatten (l : List (String × List Nat)) (r : String) :
    ∀ c ∈ subsOfL l r, c ∈ (l.map (fun p => p.2)).flatten := by
  intro c hc
  unfold subsOfL at hc
  cases hf : l.find? (fun p => p.1 == r) with
  | none =>
    rw [hf] at hc
    cases hc
  | some p =>
    rw [hf] at hc
    rw [List.mem_flatten]
    exact ⟨p.2, List.mem_map_of_mem _ (List.mem_of_find?_eq_some hf), hc⟩

theorem subsOfL_disjoint :
    ∀ (l : List (String × List Nat)) (S R : String), S ≠ R →
      ((l.map (fun p => p.2)).flatten).Nodup →
      ∀ c, c ∈ subsOfL l S → c ∉ subsOfL l R := by
  intro l
  induction l with
  | nil =>
    intro S R _ _ c hc
    cases hc
  | cons p t ih =>
    intro S R hne hnd c hcS hcR
    rw [List.map_cons, List.flatten_cons] at hnd
    have hdisj := List.disjoint_of_nodup_append hnd
    have hnd2 := (List.nodup_append.1 hnd).2.1
    rw [subsOfL_cons] at hcS hcR
    by_cases hS : (p.1 == S) = true
    · have hR : (p.1 == R) = false := by
        rw [beq_iff_eq] at hS
        exact beq_eq_false_iff_ne.2 (hS ▸ hne)
      rw [if_pos hS] at hcS
      rw [hR] at hcR
      simp only [Bool.false_eq_true, if_false] at hcR
      exact hdisj hcS (subsOfL_subset_flatten t R c hcR)
    · rw [if_neg hS] at hcS
      by_cases hR : (p.1 == R) = true
      · rw [if_pos hR] at hcR
        exact hdisj hcR (subsOfL_subset_flatten t S c hcS)
      · rw [if_neg hR] at hcR
        exact ih S R hne hnd2 c hcS hcR

theorem subsOfL_nodup (l : List (String × List Nat)) (r : String)
    (hnd : ((l.map (fun p => p.2)).flatten).Nodup) : (subsOfL l r).Nodup := by
  unfold subsOfL
  cases hf : l.find? (fun p => p.1 == r) with
  | none => exact List.nodup_nil
  | some p =>
    have hmem : p.2 ∈ l.map (fun q => q.2) :=
      List.mem_map_of_mem _ (List.mem_of_find?_eq_some hf)
    exact (List.nodup_flatten.1 hnd).1 p.2 hmem

theorem subsOfL_subsSet_self (l : List (String × List Nat)) (r : String) (v : List Nat) :
    subsOfL (subsSet l r v) r = v := by
  unfold subsOfL subsSet
  rw [find?_replaceOrAppend_pos (fun p => p.1 == r) (r, v) l (by simp)]

theorem subsOfL_subsSet_other (l : List (String × List Nat)) (r r' : String)
    (v : List Nat) (hne : r' ≠ r) :
    subsOfL (subsSet l r v) r' = subsOfL l r' := by
  unfold subsOfL subsSet
  rw [find?_replaceOrAppend_other (fun p => p.1 == r) (fun p => p.1 == r') (r, v) l
    (beq_eq_false_iff_ne.2 (fun h => hne h.symm))
    (fun y hy => beq_eq_false_iff_ne.2
      (fun h => hne (h ▸ (beq_iff_eq.1 hy))))]

theorem send_eq_map {α : Type} (bs : List (Nat × List α)) (c : Nat) (e : α) :
    send bs c e = bs.map (fun p =>
      if (p.1 == c) = true then
        (if decide (p.2.length < 100) = true then (p.1, p.2 ++ [e]) else p)
      else p) := by
  unfold send
  congr 1
  funext p
  cases hc : (p.1 == c) <;> cases hl : decide (p.2.length < 100) <;> simp [hc, hl]

theorem keys_map_keyed {α : Type} (c : Nat) (g : Nat × List α → Nat × List α)
    (hg : ∀ p, (g p).1 = p.1) (bs : List (Nat × List α)) :
    (bs.map (fun p => if (p.1 == c) = true then g p else p)).map (fun p => p.1)
      = bs.map (fun p => p.1) := by
  induction bs with
  | nil => rfl
  | cons b t ih =>
    rw [List.map_cons, List.map_cons, List.map_cons]
    congr 1
    by_cases hb : (b.1 == c) = true
    · rw [if_pos hb]
      exact hg b
    · rw [if_neg hb]

theorem keys_send {α : Type} (bs : List (Nat × List α)) (c : Nat) (e : α) :
    (send bs c e).map (fun p => p.1) = bs.map (fun p => p.1) := by
  rw [send_eq_map]
  exact keys_map_keyed c _ (fun p => by split <;> rfl) bs

theorem find?_map_keyed_self {α : Type} (c : Nat) (g : Nat × List α → Nat × List α)
    (hg : ∀ p, (g p).1 = p.1) :
    ∀ bs : List (Nat × List α),
      (bs.map (fun p => if (p.1 == c) = true then g p else p)).find? (fun p => p.1 == c)
        = (bs.find? (fun p => p.1 == c)).map g := by
  intro bs
  induction bs with
  | nil => rfl
  | cons b t ih =>
    by_cases hb : (b.1 == c) = true
    · have hgb : ((g b).1 == c) = true := by rw [hg b]; exact hb
      rw [List.map_cons, if_pos hb]
      rw [List.find?_cons_of_pos (p := fun q : Nat × List α => q.1 == c) _ hgb,
        List.find?_cons_of_pos (p := fun q : Nat × List α => q.1 == c) _ hb]
      rfl
    · rw [List.map_cons, if_neg hb]
      rw [List.find?_cons_of_neg (p := fun q : Nat × List α => q.1 == c) _ hb,
        List.find?_cons_of_neg (p := fun q : Nat × List α => q.1 == c) _ hb]
      exact ih

theorem find?_map_keyed_other {α : Type} (c c' : Nat) (hne : c' ≠ c)
    (g : Nat × List α → Nat × List α) (hg : ∀ p, (g p).1 = p.1) :
    ∀ bs : List (Nat × List α),
      (bs.map (fun p => if (p.1 == c) = true then g p else p)).find? (fun p => p.1 == c')
        = bs.find? (fun p => p.1 == c') := by
  intro bs
  induction bs with
  | nil => rfl
  | cons b t ih =>
    by_cases hb : (b.1 == c) = true
    · have hbc : b.1 = c := beq_iff_eq.1 hb
      have hb' : (b.1 == c') = false :=
        beq_eq_false_iff_ne.2 (fun h => hne (h ▸ hbc ▸ rfl))
      have hgb' : ((g b).1 == c') = false := by rw [hg b]; exact hb'
      rw [List.map_cons, if_pos hb]
      rw [List.find?_cons_of_neg (p := fun q : Nat × List α => q.1 == c') _
          (by simp [hgb']),
        List.find?_cons_of_neg (p := fun q : Nat × List α => q.1 == c') _
          (by simp [hb'])]
      exact ih
    · rw [List.map_cons, if_neg hb]
      by_cases hb' : (b.1 == c') = true
      · rw [List.find?_cons_of_pos (p := fun q : Nat × List α => q.1 == c') _ hb',
          List.find?_cons_of_pos (p := fun q : Nat × List α => q.1 == c') _ hb']
      · rw [List.find?_cons_of_neg (p := fun q : Nat × List α => q.1 == c') _ hb',
          List.find?_cons_of_neg (p := fun q : Nat × List α => q.1 == c') _ hb']
        exact ih

theorem bufOfL_send_ne {α : Type} (bs : List (Nat × List α)) (c c' : Nat) (e : α)
    (hne : c' ≠ c) : bufOfL (send bs c e) c' = bufOfL bs c' := by
  unfold bufOfL
  rw [send_eq_map, find?_map_keyed_other c c' hne _ (fun p => by split <;> rfl) bs]

theorem bufOfL_send_self {α : Type} (bs : List (Nat × List α)) (c : Nat) (e : α)
    (hk : c ∈ bs.map (fun p => p.1)) :
    bufOfL (send bs c e) c
      = if (bufOfL bs c).length < 100 then bufOfL bs c ++ [e] else bufOfL bs c := by
  unfold bufOfL
  rw [send_eq_map, find?_map_keyed_self c _ (fun p => by split <;> rfl) bs]
  cases hf : bs.find? (fun p => p.1 == c) with
  | none =>
    exfalso
    obtain ⟨p, hp, hpc⟩ := List.mem_map.1 hk
    exact absurd (beq_iff_eq.2 hpc) (by
      have := List.find?_eq_none.1 hf p hp
      exact fun h => this h)
  | some p =>
    simp only [Option.map_some]
    by_cases hl : p.2.length < 100
    · rw [if_pos (by simpa using hl)]
      simp [hl]
    · rw [if_neg (by simpa using hl)]
      simp [hl]

theorem bufOfL_foldl_not_mem {α : Type} (e : α) :
    ∀ (L : List Nat) (bs : List (Nat × List α)) (c : Nat), c ∉ L →
      bufOfL (L.foldl (fun b x => send b x e) bs) c = bufOfL bs c := by
  intro L
  induction L with
  | nil => intro bs c _; rfl
  | cons x t ih =>
    intro bs c hc
    rw [List.foldl_cons]
    rw [ih (send bs x e) c (fun h => hc (List.mem_cons_of_mem x h))]
    exact bufOfL_send_ne bs x c e (fun h => hc (h ▸ List.mem_cons_self x t))

theorem bufOfL_foldl_mem {α : Type} (e : α) :
    ∀ (L : List Nat) (bs : List (Nat × List α)) (c : Nat), L.Nodup → c ∈ L →
      c ∈ bs.map (fun p => p.1) →
      bufOfL (L.foldl (fun b x => send b x e) bs) c
        = if (bufOfL bs c).length < 100 then bufOfL bs c ++ [e] else bufOfL bs c := by
  intro L
  induction L with
  | nil =>
    intro bs c _ hc _
    cases hc
  | cons x t ih =>
    intro bs c hnd hc hk
    rw [List.foldl_cons]
    rw [List.nodup_cons] at hnd
    rcases List.mem_cons.1 hc with rfl | hct
    · rw [bufOfL_foldl_not_mem e t _ c hnd.1]
      exact bufOfL_send_self bs c e hk
    · have hcx : c ≠ x := fun h => hnd.1 (h ▸ hct)
      have hk2 : c ∈ (send bs x e).map (fun p => p.1) := by
        rw [keys_send]
        exact hk
      rw [ih (send bs x e) c hnd.2 hct hk2]
      rw [bufOfL_send_ne bs x c e hcx]

theorem unsubscribe_not_mem {α : Type} (h : Hub α) (r : String) (c : Nat)
    (hc : c ∉ subsOf h r) : unsubscribe h r c = h := by
  unfold unsubscribe
  rw [if_neg hc]

theorem unsubscribe_bufs {α : Type} (h : Hub α) (r : String) (c : Nat) :
    (unsubscribe h r c).bufs = h.bufs := by
  unfold unsubscribe
  split <;> rfl

theorem unsubscribe_closed {α : Type} (h : Hub α) (r : String) (c : Nat)
    (hc : c ∈ subsOf h r) : (unsubscribe h r c).closed = c :: h.closed := by
  unfold unsubscribe
  rw [if_pos hc]

theorem subsOf_unsubscribe_self {α : Type} (h : Hub α) (r : String) (c : Nat)
    (hc : c ∈ subsOf h r) :
    subsOf (unsubscribe h r c) r = (subsOf h r).erase c := by
  unfold unsubscribe
  rw [if_pos hc]
  show subsOfL (subsSet h.subs r ((subsOf h r).erase c)) r = _
  exact subsOfL_subsSet_self h.subs r _

theorem subsOf_unsubscribe_other {α : Type} (h : Hub α) (r r' : String) (c : Nat)
    (hne : r' ≠ r) : subsOf (unsubscribe h r c) r' = subsOf h r' := by
  unfold unsubscribe
  split
  · show subsOfL (subsSet h.subs r ((subsOf h r).erase c)) r' = _
    exact subsOfL_subsSet_other h.subs r r' _ hne
  · rfl

theorem bufOf_broadcast_mem {α : Type} (h : Hub α) (r : String) (e : α) (c : Nat)
    (hwf : WFHub h) (hc : c ∈ subsOf h r) :
    bufOf (broadcast h r e) c
      = if (bufOf h c).length < 100 then bufOf h c ++ [e] else bufOf h c := by
  have hnd : (subsOf h r).Nodup := subsOfL_nodup h.subs r hwf.1
  have hk : c ∈ h.bufs.map (fun p => p.1) :=
    hwf.2.1 c (subsOfL_subset_flatten h.subs r c hc)
  exact bufOfL_foldl_mem e (subsOf h r) h.bufs c hnd hc hk

theorem bufOf_broadcast_not_mem {α : Type} (h : Hub α) (r : String) (e : α) (c : Nat)
    (hc : c ∉ subsOf h r) : bufOf (broadcast h r e) c = bufOf h c :=
  bufOfL_foldl_not_mem e (subsOf h r) h.bufs c hc

/-- C9: a broadcast on retrospective `r` appends the event to the queue
of every channel subscribed under `r` whose buffer has room, drops the
event for a subscribed channel whose buffer is full (the publisher never
blocks), and leaves every queue not subscribed under `r` — in particular
every queue of every other retrospective — untouched; and after
unsubscribing one of `r`'s channels, a subsequent broadcast no longer
reaches it while still reaching the remaining subscribers. -/
theorem c9_broadcast_fanout {α : Type} (h : Hub α) (r other : String) (e e2 : α)
    (c : Nat) (hwf : WFHub h) (hc : c ∈ subsOf h r) :
    ((bufOf h c).length < 100 → bufOf (broadcast h r e) c = bufOf h c ++ [e]) ∧
    (¬ (bufOf h c).length < 100 → bufOf (broadcast h r e) c = bufOf h c) ∧
    (∀ c', c' ∉ subsOf h r → bufOf (broadcast h r e) c' = bufOf h c') ∧
    (other ≠ r → ∀ c', c' ∈ subsOf h other → bufOf (broadcast h r e) c' = bufOf h c') ∧
    (∀ c0, c0 ∈ subsOf h r →
      bufOf (broadcast (unsubscribe h r c0) r e2) c0 = bufOf h c0 ∧
      (c ≠ c0 → (bufOf h c).length < 100 →
        bufOf (broadcast (unsubscribe h r c0) r e2) c = bufOf h c ++ [e2])) := by
  have hnd : (subsOf h r).Nodup := subsOfL_nodup h.subs r hwf.1
  refine ⟨?_, ?_, ?_, ?_, ?_⟩
  · intro hlen
    rw [bufOf_broadcast_mem h r e c hwf hc, if_pos hlen]
  · intro hlen
    rw [bufOf_broadcast_mem h r e c hwf hc, if_neg hlen]
  · intro c' hc'
    exact bufOf_broadcast_not_mem h r e c' hc'
  · intro hne c' hc'
    exact bufOf_broadcast_not_mem h r e c'
      (subsOfL_disjoint h.subs other r hne hwf.1 c' hc')
  · intro c0 hc0
    have hsubs' : subsOf (unsubscribe h r c0) r = (subsOf h r).erase c0 :=
      subsOf_unsubscribe_self h r c0 hc0
    have hbufs' : (unsubscribe h r c0).bufs = h.bufs := unsubscribe_bufs h r c0
    constructor
    · have hnot : c0 ∉ subsOf (unsubscribe h r c0) r := by
        rw [hsubs']
        exact hnd.not_mem_erase
      have := bufOf_broadcast_not_mem (unsubscribe h r c0) r e2 c0 hnot
      rw [this]
      show bufOfL (unsubscribe h r c0).bufs c0 = bufOfL h.bufs c0
      rw [hbufs']
    · intro hne hlen
      have hmem' : c ∈ subsOf (unsubscribe h r c0) r := by
        rw [hsubs']
        exact (List.mem_erase_of_ne hne).2 hc
      have hnd' : (subsOf (unsubscribe h r c0) r).Nodup := by
        rw [hsubs']
        exact hnd.erase c0
      have hk : c ∈ (unsubscribe h r c0).bufs.map (fun p => p.1) := by
        rw [hbufs']
        exact hwf.2.1 c (subsOfL_subset_flatten h.subs r c hc)
      have hmain := bufOfL_foldl_mem e2 (subsOf (unsubscribe h r c0) r)
        (unsubscribe h r c0).bufs c hnd' hmem' hk
      show bufOfL _ c = _
      rw [show (broadcast (unsubscribe h r c0) r e2).bufs
          = (subsOf (unsubscribe h r c0) r).foldl
              (fun b x => send b x e2) (unsubscribe h r c0).bufs from rfl]
      rw [hmain]
      have hbc : bufOfL (unsubscribe h r c0).bufs c = bufOf h c := by
        rw [hbufs']
        rfl
      rw [hbc, if_pos hlen]

/-- C9 witness: the hub fixture with channels 0,1,2 on `R` and 3 on
`S`. -/
theorem c9_broadcast_fanout_witness :
    ((bufOf fixHub 0).length < 100 →
      bufOf (broadcast fixHub "R" 7) 0 = bufOf fixHub 0 ++ [7]) ∧
    (¬ (bufOf fixHub 0).length < 100 →
      bufOf (broadcast fixHub "R" 7) 0 = bufOf fixHub 0) ∧
    (∀ c', c' ∉ subsOf fixHub "R" →
      bufOf (broadcast fixHub "R" 7) c' = bufOf fixHub c') ∧
    ("S" ≠ "R" → ∀ c', c' ∈ subsOf fixHub "S" →
      bufOf (broadcast fixHub "R" 7) c' = bufOf fixHub c') ∧
    (∀ c0, c0 ∈ subsOf fixHub "R" →
      bufOf (broadcast (unsubscribe fixHub "R" c0) "R" 8) c0 = bufOf fixHub c0 ∧
      (0 ≠ c0 → (bufOf fixHub 0).length < 100 →
        bufOf (broadcast (unsubscribe fixHub "R" c0) "R" 8) 0
          = bufOf fixHub 0 ++ [8])) :=
  c9_broadcast_fanout fixHub "R" "S" 7 8 0 (by unfold WFHub allSubIds; decide) (by decide)

/-- C10: unsubscribing a handle that is not (or no longer) registered
under the retrospective leaves the hub exactly as it was — no registry
change and no channel close — while unsubscribing a registered handle
removes it from that retrospective's list (only the first occurrence,
and under well-formedness the only one), closes it exactly once, leaves
all buffers and all other retrospectives' registrations unchanged, and
makes a second Unsubscribe of the same handle a safe no-op. -/
theorem c10_unsubscribe_idempotent {α : Type} (h : Hub α) (r : String) (c : Nat)
    (hwf : WFHub h) :
    (c ∉ subsOf h r → unsubscribe h r c = h) ∧
    (c ∈ subsOf h r →
      subsOf (unsubscribe h r c) r = (subsOf h r).erase c ∧
      c ∉ subsOf (unsubscribe h r c) r ∧
      (unsubscribe h r c).closed = c :: h.closed ∧
      (unsubscribe h r c).bufs = h.bufs ∧
      (∀ r', r' ≠ r → subsOf (unsubscribe h r c) r' = subsOf h r') ∧
      unsubscribe (unsubscribe h r c) r c = unsubscribe h r c) := by
  have hnd : (subsOf h r).Nodup := subsOfL_nodup h.subs r hwf.1
  refine ⟨fun hc => unsubscribe_not_mem h r c hc, fun hc => ?_⟩
  have hsubs' : subsOf (unsubscribe h r c) r = (subsOf h r).erase c :=
    subsOf_unsubscribe_self h r c hc
  have hnot : c ∉ subsOf (unsubscribe h r c) r := by
    rw [hsubs']
    exact hnd.not_mem_erase
  exact ⟨hsubs', hnot, unsubscribe_closed h r c hc, unsubscribe_bufs h r c,
    fun r' hne => subsOf_unsubscribe_other h r r' c hne,
    unsubscribe_not_mem (unsubscribe h r c) r c hnot⟩

/-- C10 witness: handle 0 is registered once under `R`; it is removed
and closed exactly once, and the second Unsubscribe is a no-op. -/
theorem c10_unsubscribe_idempotent_witness :
    (0 ∉ subsOf fixHub "R" → unsubscribe fixHub "R" 0 = fixHub) ∧
    (0 ∈ subsOf fixHub "R" →
      subsOf (unsubscribe fixHub "R" 0) "R" = (subsOf fixHub "R").erase 0 ∧
      0 ∉ subsOf (unsubscribe fixHub "R" 0) "R" ∧
      (unsubscribe fixHub "R" 0).closed = 0 :: fixHub.closed ∧
      (unsubscribe fixHub "R" 0).bufs = fixHub.bufs ∧
      (∀ r', r' ≠ "R" → subsOf (unsubscribe fixHub "R" 0) r' = subsOf fixHub r') ∧
      unsubscribe (unsubscribe fixHub "R" 0) "R" 0 = unsubscribe fixHub "R" 0) :=
  c10_unsubscribe_idempotent fixHub "R" 0 (by unfold WFHub allSubIds; decide)

end VRetro
